import Mathlib

/-!
Shallow embedding of the reward-claim / coin-ledger subsystem of the
AdVentureMaze backend (source file src/src/db.ts, first variant: the one whose
line numbers the claims reference).

Modelling conventions:
* The relational store is a record of lists, one per table (users,
  reward_claims, level_rewards, monthly_payouts, user_ads), mirroring the
  schema created by initDB.  The users table key is uid.
* SQL INT columns that are only ever incremented or reset to zero are Nat;
  the coin balance and ledger amounts are Int (the SQL code can make the
  balance negative, see addCoins).
* Timestamp columns are not modelled except for the created_at date of
  reward_claims rows, which claimDailyLogin compares against CURRENT_DATE;
  that date is modelled as an abstract day number carried in the store
  (field today).  currentMonthKey() is likewise an abstract field month.
* A JS return object with an absent field is modelled with the default for
  that field: an absent user is none, an absent already flag is false
  (absent JS fields read as undefined, which is falsy).
* A JS throw leaves the store as it was at the throw point and is modelled
  as an explicit error result.
-/

/-- The monthly rate breakdown object built by calcMonthlyRate (db.ts 1054). -/
structure RateBreakdown where
  daily : Nat
  levels : Nat
  invites : Nat
  skill : Nat
  engagement : Nat
  streak : Nat
deriving Repr, DecidableEq

/-- A row of the users table (db.ts initDB, lines 37-73).  The username and
updated_at columns play no role in any claim and are omitted; coins_month is
the column written by closeMonthAndResetCoins. -/
structure Account where
  uid : String
  coins : Int
  free_restarts_used : Nat
  free_skips_used : Nat
  free_hints_used : Nat
  monthly_key : Option String
  monthly_coins_earned : Int
  monthly_login_days : Nat
  monthly_levels_completed : Nat
  monthly_skips_used : Nat
  monthly_hints_used : Nat
  monthly_restarts_used : Nat
  monthly_ads_watched : Nat
  monthly_valid_invites : Nat
  monthly_max_win_streak : Nat
  monthly_rate_breakdown : RateBreakdown
  monthly_final_rate : Nat
  lifetime_coins_earned : Int
  lifetime_coins_spent : Int
  lifetime_levels_completed : Nat
  coins_month : Option String
deriving Repr, DecidableEq

/-- A row of the reward_claims table (db.ts lines 87-95).  created_at is
modelled only by its calendar date (day). -/
structure RewardClaim where
  uid : String
  type : String
  nonce : Option String
  amount : Int
  day : Nat
deriving Repr, DecidableEq

/-- A row of the monthly_payouts table (db.ts lines 119-131); the columns the
claims never touch (pi_amount, sent_at, tx_id) are omitted. -/
structure Payout where
  uid : String
  month : String
  coins_collected : Int
  status : String
deriving Repr, DecidableEq

/-- A row of the user_ads table (db.ts lines 134-143).  trackAdView also
writes an ads_for_restarts column, included here. -/
structure UserAds where
  uid : String
  month : String
  ads_for_coins : Nat
  ads_for_skips : Nat
  ads_for_hints : Nat
  ads_for_restarts : Nat
deriving Repr, DecidableEq

/-- The relational store, plus the ambient clock: today models CURRENT_DATE
and month models currentMonthKey(). -/
structure DB where
  users : List Account
  reward_claims : List RewardClaim
  level_rewards : List (String × Nat)
  monthly_payouts : List Payout
  user_ads : List UserAds
  today : Nat
  month : String
deriving Repr, DecidableEq

/-- SELECT * FROM users WHERE uid=$1 (getUserByUid, db.ts 284). -/
def findUser (db : DB) (uid : String) : Option Account :=
  db.users.find? (fun u => u.uid == uid)

/-- UPDATE users SET ... WHERE uid=$1: apply f to every row whose uid
matches. -/
def updateUsers (db : DB) (uid : String) (f : Account → Account) : DB :=
  { db with users := db.users.map (fun u => if u.uid == uid then f u else u) }

/-- INSERT INTO reward_claims (uid,type,nonce,amount,created_at). -/
def insertClaim (db : DB) (uid typ : String) (nonce : Option String)
    (amount : Int) : DB :=
  { db with reward_claims :=
      db.reward_claims ++ [⟨uid, typ, nonce, amount, db.today⟩] }

/-- addCoins (db.ts 291-308): adds delta to coins and GREATEST(delta,0) to the
two earned counters; RETURNING * gives back the updated row (or nothing when
the uid is unknown). -/
def addCoins (db : DB) (uid : String) (delta : Int) : DB × Option Account :=
  let db2 := updateUsers db uid (fun u =>
    { u with
      coins := u.coins + delta
      monthly_coins_earned := u.monthly_coins_earned + max delta 0
      lifetime_coins_earned := u.lifetime_coins_earned + max delta 0 })
  (db2, findUser db2 uid)

/-- Outcome of spendCoins (db.ts 310-331): the update fires only when the
balance covers the (absolute value of the) amount; otherwise the JS throws. -/
inductive SpendOutcome where
  | ok (user : Account)
  | amountRequired
  | notEnoughCoins
deriving Repr, DecidableEq

/-- spendCoins (db.ts 310-331): a := Math.abs(amount); throws when a = 0; the
UPDATE fires on rows satisfying uid=$1 AND coins >= a, debiting a and adding a
to lifetime_coins_spent; zero rows updated throws Not enough coins, one row
updated returns it (RETURNING *, rows[0]). -/
def spendCoins (db : DB) (uid : String) (amount : Int) : DB × SpendOutcome :=
  let a : Int := |amount|
  if a = 0 then (db, .amountRequired)
  else
    let db2 := { db with users := db.users.map (fun v =>
      if v.uid == uid && decide (a ≤ v.coins) then
        { v with
          coins := v.coins - a
          lifetime_coins_spent := v.lifetime_coins_spent + a }
      else v) }
    match db.users.find? (fun v => v.uid == uid && decide (a ≤ v.coins)) with
    | some u =>
      (db2, .ok { u with
        coins := u.coins - a
        lifetime_coins_spent := u.lifetime_coins_spent + a })
    | none => (db, .notEnoughCoins)

/-- calcMonthlyRate (db.ts 1054-1116): base 50 plus capped bonus bands, the
total clamped above at 100.  Each band below is one commented block of the
source function. -/
def dailyBand (days : Nat) : Nat :=
  if days ≥ 20 then 10 else if days ≥ 15 then 7 else if days ≥ 7 then 3 else 0

/-- LEVELS band of calcMonthlyRate (max +15). -/
def levelsBand (lv : Nat) : Nat :=
  if lv ≥ 120 then 15 else if lv ≥ 60 then 10 else if lv ≥ 20 then 5 else 0

/-- INVITES band of calcMonthlyRate (max +10). -/
def invitesBand (inv : Nat) : Nat :=
  if inv ≥ 10 then 10 else if inv ≥ 6 then 6 else if inv ≥ 3 then 3 else 0

/-- SKILL band of calcMonthlyRate (max +5). -/
def skillBand (skips hints restarts : Nat) : Nat :=
  min 5 ((if skips ≥ 3 then 2 else 0) + (if hints ≥ 3 then 2 else 0) +
    (if restarts ≥ 1 then 1 else 0))

/-- ADS band of calcMonthlyRate (max +5). -/
def engagementBand (ads : Nat) : Nat :=
  if ads ≥ 15 then 5 else if ads ≥ 5 then 2 else 0

/-- STREAK band of calcMonthlyRate (max +3). -/
def streakBand (streak : Nat) : Nat :=
  if streak ≥ 7 then 3 else if streak ≥ 3 then 2 else 0

/-- calcMonthlyRate (db.ts 1054-1116): returns the pair (rate, breakdown). -/
def calcMonthlyRate (u : Account) : Nat × RateBreakdown :=
  let breakdown : RateBreakdown :=
    { daily := dailyBand u.monthly_login_days
      levels := levelsBand u.monthly_levels_completed
      invites := invitesBand u.monthly_valid_invites
      skill := skillBand u.monthly_skips_used u.monthly_hints_used
        u.monthly_restarts_used
      engagement := engagementBand u.monthly_ads_watched
      streak := streakBand u.monthly_max_win_streak }
  let rate := 50 + breakdown.daily + breakdown.levels + breakdown.invites +
    breakdown.skill + breakdown.engagement + breakdown.streak
  (if rate > 100 then 100 else rate, breakdown)

/-- recalcAndStoreMonthlyRate (db.ts 1118-1139): recompute from the current
row and persist rate and breakdown.  The source throws on an unknown uid; no
claim exercises that path, so the store is returned unchanged there. -/
def recalcAndStoreMonthlyRate (db : DB) (uid : String) : DB :=
  match findUser db uid with
  | none => db
  | some u =>
    let out := calcMonthlyRate u
    updateUsers db uid (fun v =>
      { v with monthly_final_rate := out.1, monthly_rate_breakdown := out.2 })

/-- Result object of the idempotent claim functions: already is true on the
duplicate path; user is the row returned by addCoins (absent on the duplicate
path, which returns only the already flag). -/
structure ClaimResult where
  already : Bool
  user : Option Account
deriving Repr, DecidableEq

/-- Does a reward_claims row with this uid and exact nonce exist (the
duplicate guard of claimReward, db.ts 391-395)? -/
def hasNonce (db : DB) (uid nonce : String) : Bool :=
  db.reward_claims.any (fun c => c.uid == uid && c.nonce == some nonce)

/-- claimReward (db.ts 383-414): duplicate guard on (uid, nonce); otherwise
insert the ledger row, addCoins, and for the ad types additionally bump
monthly_ads_watched and recalc the stored rate.  cooldownSeconds is accepted
and ignored, exactly as in the source. -/
def claimReward (db : DB) (uid typ nonce : String) (amount : Int)
    (_cooldownSeconds : Nat) : DB × ClaimResult :=
  if hasNonce db uid nonce then (db, { already := true, user := none })
  else
    let db1 := insertClaim db uid typ (some nonce) amount
    let res := addCoins db1 uid amount
    let db3 :=
      if typ == "ad_50" || typ == "ad" then
        recalcAndStoreMonthlyRate
          (updateUsers res.1 uid (fun v =>
            { v with monthly_ads_watched := v.monthly_ads_watched + 1 })) uid
      else res.1
    (db3, { already := false, user := res.2 })

/-- The guard of claimDailyLogin (db.ts 417-424): does a daily_login claim
row for uid created today exist? -/
def dailyClaimedToday (db : DB) (uid : String) : Bool :=
  db.reward_claims.any (fun c =>
    c.uid == uid && c.type == "daily_login" && c.day == db.today)

/-- claimDailyLogin (db.ts 416-443): guard on an existing daily_login row
created today; otherwise insert a nonce-less row with amount 5, addCoins 5,
bump monthly_login_days, recalc. -/
def claimDailyLogin (db : DB) (uid : String) : DB × ClaimResult :=
  if dailyClaimedToday db uid then
    (db, { already := true, user := none })
  else
    let db1 := insertClaim db uid "daily_login" none 5
    let res := addCoins db1 uid 5
    let db3 := updateUsers res.1 uid (fun v =>
      { v with monthly_login_days := v.monthly_login_days + 1 })
    (recalcAndStoreMonthlyRate db3 uid, { already := false, user := res.2 })

/-- The guard of claimLevelComplete (db.ts 446-450): does the (uid, level)
once-only marker row exist? -/
def hasLevelMarker (db : DB) (uid : String) (level : Nat) : Bool :=
  db.level_rewards.any (fun r => r.1 == uid && r.2 == level)

/-- claimLevelComplete (db.ts 445-473): guard on the level_rewards once-only
marker; otherwise insert the marker, addCoins 1, bump the level counters,
recalc. -/
def claimLevelComplete (db : DB) (uid : String) (level : Nat) :
    DB × ClaimResult :=
  if hasLevelMarker db uid level then
    (db, { already := true, user := none })
  else
    let db1 := { db with level_rewards := db.level_rewards ++ [(uid, level)] }
    let res := addCoins db1 uid 1
    let db3 := updateUsers res.1 uid (fun v =>
      { v with
        monthly_levels_completed := v.monthly_levels_completed + 1
        lifetime_levels_completed := v.lifetime_levels_completed + 1 })
    (recalcAndStoreMonthlyRate db3 uid, { already := false, user := res.2 })

/-- The kind argument of trackAdView (db.ts 915-947). -/
inductive AdKind where
  | coins
  | skips
  | hints
  | restarts
deriving Repr, DecidableEq

/-- The (uid, current month) row of user_ads, the row both trackAdView and
getMonthlyAds address. -/
def adsRow (db : DB) (uid : String) : Option UserAds :=
  db.user_ads.find? (fun r => r.uid == uid && r.month == db.month)

/-- The column increment trackAdView applies for each kind. -/
def adsBump (kind : AdKind) (r : UserAds) : UserAds :=
  match kind with
  | .coins => { r with ads_for_coins := r.ads_for_coins + 1 }
  | .skips => { r with ads_for_skips := r.ads_for_skips + 1 }
  | .hints => { r with ads_for_hints := r.ads_for_hints + 1 }
  | .restarts => { r with ads_for_restarts := r.ads_for_restarts + 1 }

/-- trackAdView (db.ts 915-947): upsert the (uid, month) user_ads row, then
increment the column selected by kind. -/
def trackAdView (db : DB) (uid : String) (kind : AdKind) : DB :=
  let db1 :=
    if db.user_ads.any (fun r => r.uid == uid && r.month == db.month) then db
    else { db with user_ads :=
            db.user_ads ++ [⟨uid, db.month, 0, 0, 0, 0⟩] }
  { db1 with user_ads := db1.user_ads.map (fun r =>
      if r.uid == uid && r.month == db.month then adsBump kind r else r) }

/-- getMonthlyAds (db.ts 950-974): the (uid, month) user_ads row, or all
zeros when absent (only the three selected columns are read). -/
def getMonthlyAds (db : DB) (uid : String) : Nat × Nat × Nat :=
  match adsRow db uid with
  | some r => (r.ads_for_coins, r.ads_for_skips, r.ads_for_hints)
  | none => (0, 0, 0)

/-- coinRewardForAd (db.ts 976-979): max(50 - adsForCoinsThisMonth, 2). -/
def coinRewardForAd (adsForCoinsThisMonth : Int) : Int :=
  max (50 - adsForCoinsThisMonth) 2

/-- Decimal digit to character, as produced by a JS template literal. -/
def digitToChar (d : Nat) : Char :=
  match d with
  | 0 => '0' | 1 => '1' | 2 => '2' | 3 => '3' | 4 => '4'
  | 5 => '5' | 6 => '6' | 7 => '7' | 8 => '8' | 9 => '9'
  | _ => '*'

/-- Little-endian decimal digits with explicit fuel (so that the definition
computes by kernel reduction). -/
def decDigitsAux : Nat → Nat → List Nat
  | 0, _ => []
  | fuel + 1, n => if n = 0 then [] else n % 10 :: decDigitsAux fuel (n / 10)

/-- Little-endian decimal digits of n. -/
def decDigits (n : Nat) : List Nat := decDigitsAux n n

/-- The decimal string a JS template literal produces for a natural n. -/
def natDecimal (n : Nat) : String :=
  if n = 0 then "0" else String.mk ((decDigits n).reverse.map digitToChar)

/-- The nonce template of claimCoinAd (db.ts 991). -/
def coinAdNonce (month : String) (k : Nat) : String :=
  "coin-ad-" ++ month ++ "-" ++ natDecimal k

/-- claimCoinAd (db.ts 980-1000): track the ad view, read back the monthly
count, derive the decaying amount from the count before the increment, and
feed the deterministic nonce into claimReward with type ad. -/
def claimCoinAd (db : DB) (uid : String) : DB × ClaimResult :=
  let db1 := trackAdView db uid .coins
  let adsForCoins := (getMonthlyAds db1 uid).1
  let coins := coinRewardForAd ((adsForCoins : Int) - 1)
  let nonce := coinAdNonce db.month adsForCoins
  claimReward db1 uid "ad" nonce coins 0

/-- The duplicate guard of the ad branches (db.ts 579-583, 643-646): does a
reward_claims row with this uid, type and exact nonce exist? -/
def hasTypedNonce (db : DB) (uid typ nonce : String) : Bool :=
  db.reward_claims.any (fun c =>
    c.uid == uid && c.type == typ && c.nonce == some nonce)

/-- The mode union type of the consume functions (db.ts 162). -/
inductive SpendMode where
  | free
  | coins
  | ad
  | pi
deriving Repr, DecidableEq

/-- The item union type of consumeItem (db.ts 13-32). -/
inductive Item where
  | restart
  | skip
  | hint
deriving Repr, DecidableEq

/-- Observable outcome of a consume call: ok mirrors the returned object
(already flag and user snapshot), errObj mirrors a returned
ok:false / error:code object, thrown mirrors a JS throw, and undef mirrors a
code path that falls off the function without returning. -/
inductive ConsumeOutcome where
  | ok (already : Bool) (user : Option Account)
  | errObj (error : String)
  | thrown (msg : String)
  | undef
deriving Repr, DecidableEq

/-- useRestarts (db.ts 478-516): free and coins branches only; any other mode
falls through and the function returns undefined. -/
def useRestarts (db : DB) (uid : String) (mode : SpendMode)
    (_nonce : Option String) : DB × ConsumeOutcome :=
  match findUser db uid with
  | none => (db, .thrown "User not found")
  | some user =>
    match mode with
    | .free =>
      if user.free_restarts_used ≥ 3 then (db, .errObj "NO_FREE_RESTARTS")
      else
        let db1 := updateUsers db uid (fun u =>
          { u with free_restarts_used := u.free_restarts_used + 1 })
        (db1, .ok false (findUser db1 uid))
    | .coins =>
      match spendCoins db uid 50 with
      | (db1, .ok u) =>
        (insertClaim db1 uid "restart_coin" none (-50), .ok false (some u))
      | (db1, .amountRequired) => (db1, .thrown "Amount required")
      | (db1, .notEnoughCoins) => (db1, .thrown "Not enough coins")
    | _ => (db, .undef)

/-- useSkip (db.ts 518-611): free, coins and ad branches; the free failure is
the returned object with error NO_FREE_SKIPS; the ad branch requires a nonce,
is guarded by a (uid, skip_ad, nonce) ledger row, records an amount-0 row,
tracks the ad view and bumps the monthly counters; an unmatched mode throws
INVALID_SKIP_MODE. -/
def useSkip (db : DB) (uid : String) (mode : SpendMode)
    (nonce : Option String) : DB × ConsumeOutcome :=
  match findUser db uid with
  | none => (db, .thrown "User not found")
  | some user =>
    match mode with
    | .free =>
      if user.free_skips_used ≥ 3 then (db, .errObj "NO_FREE_SKIPS")
      else
        let db1 := updateUsers db uid (fun u =>
          { u with free_skips_used := u.free_skips_used + 1 })
        let snapshot := findUser db1 uid
        let db2 := updateUsers db1 uid (fun u =>
          { u with monthly_skips_used := u.monthly_skips_used + 1 })
        (recalcAndStoreMonthlyRate db2 uid, .ok false snapshot)
    | .coins =>
      match spendCoins db uid 50 with
      | (db1, .ok u) =>
        let db2 := insertClaim db1 uid "skip_coin" none (-50)
        let db3 := updateUsers db2 uid (fun v =>
          { v with monthly_skips_used := v.monthly_skips_used + 1 })
        (recalcAndStoreMonthlyRate db3 uid, .ok false (some u))
      | (db1, .amountRequired) => (db1, .thrown "Amount required")
      | (db1, .notEnoughCoins) => (db1, .thrown "Not enough coins")
    | .ad =>
      match nonce with
      | none => (db, .thrown "Missing nonce")
      | some nn =>
        if hasTypedNonce db uid "skip_ad" nn then
          (db, .ok true (some user))
        else
          let db1 := insertClaim db uid "skip_ad" (some nn) 0
          let db2 := trackAdView db1 uid .skips
          let db3 := updateUsers db2 uid (fun v =>
            { v with
              monthly_skips_used := v.monthly_skips_used + 1
              monthly_ads_watched := v.monthly_ads_watched + 1 })
          (recalcAndStoreMonthlyRate db3 uid, .ok false (some user))
    | .pi => (db, .thrown "INVALID_SKIP_MODE")

/-- getFreeHintsLeft (db.ts 169-172): max(0, 3 - free_hints_used). -/
def getFreeHintsLeft (u : Account) : Nat :=
  max 0 (3 - u.free_hints_used)

/-- useHint (db.ts 614-656): the free failure is a thrown No free hints left
(via getFreeHintsLeft); the ad branch requires a nonce, is guarded by a
(uid, hint_ad, nonce) row, records an amount-0 row and tracks the ad view (no
monthly counter bumps). -/
def useHint (db : DB) (uid : String) (mode : SpendMode)
    (nonce : Option String) : DB × ConsumeOutcome :=
  match findUser db uid with
  | none => (db, .thrown "User not found")
  | some user =>
    match mode with
    | .free =>
      if getFreeHintsLeft user ≤ 0 then (db, .thrown "No free hints left")
      else
        let db1 := updateUsers db uid (fun u =>
          { u with free_hints_used := u.free_hints_used + 1 })
        (db1, .ok false (findUser db1 uid))
    | .coins =>
      match spendCoins db uid 50 with
      | (db1, .ok u) =>
        (insertClaim db1 uid "hint_coin" none (-50), .ok false (some u))
      | (db1, .amountRequired) => (db1, .thrown "Amount required")
      | (db1, .notEnoughCoins) => (db1, .thrown "Not enough coins")
    | _ =>
      match nonce with
      | none => (db, .thrown "Missing nonce")
      | some nn =>
        if hasTypedNonce db uid "hint_ad" nn then
          (db, .ok true (some user))
        else
          let db1 := insertClaim db uid "hint_ad" (some nn) 0
          (trackAdView db1 uid .hints, .ok false (some user))

/-- consumeItem (db.ts 13-32): dispatch on the item. -/
def consumeItem (db : DB) (uid : String) (item : Item) (mode : SpendMode)
    (nonce : Option String) : DB × ConsumeOutcome :=
  match item with
  | .restart => useRestarts db uid mode nonce
  | .skip => useSkip db uid mode nonce
  | .hint => useHint db uid mode nonce

/-- The body of the per-row loop of closeMonthAndResetCoins (db.ts 212-233):
insert the payout row unless a (uid, month) row exists, then zero the coins
and stamp coins_month. -/
def closeMonthStep (month : String) (db : DB) (r : String × Int) : DB :=
  let db1 :=
    if db.monthly_payouts.any (fun p => p.uid == r.1 && p.month == month) then
      db
    else { db with monthly_payouts :=
            db.monthly_payouts ++ [⟨r.1, month, r.2, "pending"⟩] }
  updateUsers db1 r.1 (fun u => { u with coins := 0, coins_month := some month })

/-- closeMonthAndResetCoins (db.ts 197-249): select every user with a nonzero
balance, then run the loop body over the selected (uid, coins) snapshot. -/
def closeMonthAndResetCoins (db : DB) (month : String) : DB :=
  let rows := (db.users.filter (fun u => !(u.coins == 0))).map
    (fun u => (u.uid, u.coins))
  rows.foldl (closeMonthStep month) db

/-- State after n sequential calls of a step operation (the result of each
call is discarded, the store is threaded through). -/
def iterState {α : Type} (step : DB → DB × α) : Nat → DB → DB
  | 0, db => db
  | n + 1, db => (step (iterState step n db)).1

/-- Number of reward_claims rows with this uid and exact nonce. -/
def nonceCount (db : DB) (uid nonce : String) : Nat :=
  (db.reward_claims.filter (fun c => c.uid == uid && c.nonce == some nonce)).length

/-- Number of level_rewards marker rows for (uid, level). -/
def levelMarkerCount (db : DB) (uid : String) (level : Nat) : Nat :=
  (db.level_rewards.filter (fun r => r.1 == uid && r.2 == level)).length

/-- Number of monthly_payouts rows for (uid, month). -/
def payoutCount (db : DB) (uid month : String) : Nat :=
  (db.monthly_payouts.filter (fun p => p.uid == uid && p.month == month)).length

/-- The lifetime free-usage counter of each consumable kind. -/
def freeUsed : Item → Account → Nat
  | .restart, u => u.free_restarts_used
  | .skip, u => u.free_skips_used
  | .hint, u => u.free_hints_used

/-- The concrete shape the source gives to the NoFreeUsesLeftError of the
design taxonomy, per kind: skip and restart return an ok:false object with an
error code, hint throws. -/
def noFreeUsesLeftFailure : Item → ConsumeOutcome
  | .restart => .errObj "NO_FREE_RESTARTS"
  | .skip => .errObj "NO_FREE_SKIPS"
  | .hint => .thrown "No free hints left"

/-- One call of the balance interface of the Account Store: addCoins (the
adjustCoins of the design) or spendCoins. -/
inductive CoinOp where
  | add (uid : String) (delta : Int)
  | spend (uid : String) (amount : Int)

/-- Run one balance call, keeping only the store. -/
def applyCoinOp (db : DB) : CoinOp → DB
  | .add uid delta => (addCoins db uid delta).1
  | .spend uid amount => (spendCoins db uid amount).1

/-- Run a sequence of balance calls. -/
def applyCoinOps (db : DB) (ops : List CoinOp) : DB :=
  ops.foldl applyCoinOp db

/-- An addCoins call with a non-negative delta (spendCoins is unrestricted). -/
def coinOpNonNegDelta : CoinOp → Prop
  | .add _ delta => 0 ≤ delta
  | .spend _ _ => True

/-- Every stored balance is non-negative. -/
def allBalancesNonneg (db : DB) : Prop := ∀ u ∈ db.users, 0 ≤ u.coins

/-- Pointwise order on the monthly counters calcMonthlyRate reads. -/
def countersLE (u v : Account) : Prop :=
  u.monthly_login_days ≤ v.monthly_login_days ∧
  u.monthly_levels_completed ≤ v.monthly_levels_completed ∧
  u.monthly_valid_invites ≤ v.monthly_valid_invites ∧
  u.monthly_skips_used ≤ v.monthly_skips_used ∧
  u.monthly_hints_used ≤ v.monthly_hints_used ∧
  u.monthly_restarts_used ≤ v.monthly_restarts_used ∧
  u.monthly_ads_watched ≤ v.monthly_ads_watched ∧
  u.monthly_max_win_streak ≤ v.monthly_max_win_streak

/-- Equality of the monthly counters calcMonthlyRate reads. -/
def countersEq (u v : Account) : Prop :=
  u.monthly_login_days = v.monthly_login_days ∧
  u.monthly_levels_completed = v.monthly_levels_completed ∧
  u.monthly_valid_invites = v.monthly_valid_invites ∧
  u.monthly_skips_used = v.monthly_skips_used ∧
  u.monthly_hints_used = v.monthly_hints_used ∧
  u.monthly_restarts_used = v.monthly_restarts_used ∧
  u.monthly_ads_watched = v.monthly_ads_watched ∧
  u.monthly_max_win_streak = v.monthly_max_win_streak

/-- Big-endian digit list read back as a number (left inverse of decDigits,
used to prove that decimal strings are injective). -/
def undigits : List Nat → Nat
  | [] => 0
  | d :: ds => d + 10 * undigits ds

/-- A fresh account row, with the column defaults of the users table. -/
def freshAccount (uid : String) : Account :=
  { uid := uid
    coins := 0
    free_restarts_used := 0
    free_skips_used := 0
    free_hints_used := 0
    monthly_key := none
    monthly_coins_earned := 0
    monthly_login_days := 0
    monthly_levels_completed := 0
    monthly_skips_used := 0
    monthly_hints_used := 0
    monthly_restarts_used := 0
    monthly_ads_watched := 0
    monthly_valid_invites := 0
    monthly_max_win_streak := 0
    monthly_rate_breakdown := ⟨0, 0, 0, 0, 0, 0⟩
    monthly_final_rate := 50
    lifetime_coins_earned := 0
    lifetime_coins_spent := 0
    lifetime_levels_completed := 0
    coins_month := none }

/-- A one-user store holding a fresh account u1, used by the concrete
witnesses and counterexamples. -/
def db0 : DB :=
  { users := [freshAccount "u1"]
    reward_claims := []
    level_rewards := []
    monthly_payouts := []
    user_ads := []
    today := 7
    month := "2026-01" }

/-- The users table key is uid (PRIMARY KEY): no two rows share a uid. -/
def uidsNodup (db : DB) : Prop := (db.users.map Account.uid).Nodup

/-- An account holding 120 coins and a nonzero monthly counter, the
month-close scenario of the design document. -/
def acctC3 : Account :=
  { freshAccount "u1" with coins := 120, monthly_login_days := 4 }

/-- A one-user store holding acctC3. -/
def dbC3 : DB := { db0 with users := [acctC3] }

theorem list_find?_map_ite_self (l : List Account) (uid : String)
    (f : Account → Account) (hf : ∀ u, (f u).uid = u.uid) :
    (l.map (fun u => if u.uid == uid then f u else u)).find?
        (fun u => u.uid == uid)
      = (l.find? (fun u => u.uid == uid)).map f := by
  induction l with
  | nil => rfl
  | cons a l ih =>
    by_cases h : (a.uid == uid) = true
    · rw [List.map_cons, if_pos h]
      simp only [List.find?]
      rw [hf a, h]
      rfl
    · have hb : (a.uid == uid) = false := by simpa using h
      rw [List.map_cons, if_neg h]
      simp only [List.find?]
      rw [hb]
      exact ih

theorem list_find?_map_ite_ne (l : List Account) (uid uid2 : String)
    (hne : uid2 ≠ uid) (f : Account → Account)
    (hf : ∀ u, (f u).uid = u.uid) :
    (l.map (fun u => if u.uid == uid then f u else u)).find?
        (fun u => u.uid == uid2)
      = l.find? (fun u => u.uid == uid2) := by
  induction l with
  | nil => rfl
  | cons a l ih =>
    by_cases h : (a.uid == uid) = true
    · have ha : a.uid = uid := by simpa using h
      have haa : (a.uid == uid2) = false := by
        rw [ha]; simp [Ne.symm hne]
      rw [List.map_cons, if_pos h]
      simp only [List.find?]
      rw [hf a, haa]
      exact ih
    · rw [List.map_cons, if_neg h]
      simp only [List.find?]
      by_cases h2 : (a.uid == uid2) = true
      · rw [h2]
      · have hb : (a.uid == uid2) = false := by simpa using h2
        rw [hb]
        exact ih

theorem findUser_updateUsers_self (db : DB) (uid : String)
    (f : Account → Account) (hf : ∀ u, (f u).uid = u.uid) :
    findUser (updateUsers db uid f) uid = (findUser db uid).map f :=
  list_find?_map_ite_self db.users uid f hf

theorem findUser_updateUsers_ne (db : DB) (uid uid2 : String)
    (hne : uid2 ≠ uid) (f : Account → Account)
    (hf : ∀ u, (f u).uid = u.uid) :
    findUser (updateUsers db uid f) uid2 = findUser db uid2 :=
  list_find?_map_ite_ne db.users uid uid2 hne f hf

theorem findUser_uid (db : DB) (uid : String) (u : Account)
    (h : findUser db uid = some u) : u.uid = uid := by
  have := List.find?_some h
  simpa using this

theorem addCoins_findUser (db : DB) (uid : String) (delta : Int) (u : Account)
    (h : findUser db uid = some u) :
    findUser (addCoins db uid delta).1 uid = some
      { u with
        coins := u.coins + delta
        monthly_coins_earned := u.monthly_coins_earned + max delta 0
        lifetime_coins_earned := u.lifetime_coins_earned + max delta 0 } ∧
    (addCoins db uid delta).2 = some
      { u with
        coins := u.coins + delta
        monthly_coins_earned := u.monthly_coins_earned + max delta 0
        lifetime_coins_earned := u.lifetime_coins_earned + max delta 0 } := by
  have hfind := findUser_updateUsers_self db uid
    (fun u => { u with
      coins := u.coins + delta
      monthly_coins_earned := u.monthly_coins_earned + max delta 0
      lifetime_coins_earned := u.lifetime_coins_earned + max delta 0 })
    (fun u => rfl)
  constructor
  · show findUser (updateUsers db uid _) uid = _
    rw [hfind, h]
    rfl
  · show findUser (updateUsers db uid _) uid = _
    rw [hfind, h]
    rfl

theorem dailyBand_mono {a b : Nat} (h : a ≤ b) : dailyBand a ≤ dailyBand b := by
  unfold dailyBand
  split_ifs <;> omega

theorem levelsBand_mono {a b : Nat} (h : a ≤ b) :
    levelsBand a ≤ levelsBand b := by
  unfold levelsBand
  split_ifs <;> omega

theorem invitesBand_mono {a b : Nat} (h : a ≤ b) :
    invitesBand a ≤ invitesBand b := by
  unfold invitesBand
  split_ifs <;> omega

theorem skillBand_mono {s1 h1 r1 s2 h2 r2 : Nat} (hs : s1 ≤ s2) (hh : h1 ≤ h2)
    (hr : r1 ≤ r2) : skillBand s1 h1 r1 ≤ skillBand s2 h2 r2 := by
  unfold skillBand
  refine min_le_min (le_refl 5) ?_
  split_ifs <;> omega

theorem engagementBand_mono {a b : Nat} (h : a ≤ b) :
    engagementBand a ≤ engagementBand b := by
  unfold engagementBand
  split_ifs <;> omega

theorem streakBand_mono {a b : Nat} (h : a ≤ b) :
    streakBand a ≤ streakBand b := by
  unfold streakBand
  split_ifs <;> omega

/-- C9: calcMonthlyRate is a pure function of the monthly counters (equal
counters give equal results), its rate lies between 50 and 100 (hence within
[0, 100]), and it is monotonically non-decreasing in the counters: pointwise
larger counters never decrease the rate (increasing one counter while fixing
the others is the special case where the remaining inequalities are
reflexive). -/
theorem claim_C9 (u v w : Account) (hle : countersLE u v)
    (heq : countersEq u w) :
    50 ≤ (calcMonthlyRate u).1 ∧ (calcMonthlyRate u).1 ≤ 100 ∧
    (calcMonthlyRate u).1 ≤ (calcMonthlyRate v).1 ∧
    calcMonthlyRate u = calcMonthlyRate w := by
  obtain ⟨l1, l2, l3, l4, l5, l6, l7, l8⟩ := hle
  obtain ⟨e1, e2, e3, e4, e5, e6, e7, e8⟩ := heq
  have hd := dailyBand_mono l1
  have hl := levelsBand_mono l2
  have hi := invitesBand_mono l3
  have hs := skillBand_mono l4 l5 l6
  have he := engagementBand_mono l7
  have hst := streakBand_mono l8
  refine ⟨?_, ?_, ?_, ?_⟩
  · simp only [calcMonthlyRate]
    split_ifs <;> omega
  · simp only [calcMonthlyRate]
    split_ifs <;> omega
  · simp only [calcMonthlyRate]
    split_ifs <;> omega
  · simp only [calcMonthlyRate]
    rw [e1, e2, e3, e4, e5, e6, e7, e8]

/-- Witness for C9 at concrete accounts: v raises the login-day counter, w has
the same counters with a different balance. -/
theorem claim_C9_witness :
    50 ≤ (calcMonthlyRate (freshAccount "u1")).1 ∧
    (calcMonthlyRate (freshAccount "u1")).1 ≤ 100 ∧
    (calcMonthlyRate (freshAccount "u1")).1 ≤
      (calcMonthlyRate { freshAccount "u1" with monthly_login_days := 7 }).1 ∧
    calcMonthlyRate (freshAccount "u1") =
      calcMonthlyRate { freshAccount "u1" with coins := 99 } :=
  claim_C9 (freshAccount "u1") { freshAccount "u1" with monthly_login_days := 7 }
    { freshAccount "u1" with coins := 99 }
    (by constructor <;> simp [freshAccount])
    (by constructor <;> simp [freshAccount])

/-- C10: every addCoins call adds exactly max(delta, 0) to both the
monthly_coins_earned and lifetime_coins_earned counters, so the earned
counters never decrease, and a negative delta (which debits the balance)
leaves both unchanged. -/
theorem claim_C10 (db : DB) (uid : String) (delta : Int) (u : Account)
    (h : findUser db uid = some u) :
    ∃ u2, findUser (addCoins db uid delta).1 uid = some u2 ∧
      u2.monthly_coins_earned = u.monthly_coins_earned + max delta 0 ∧
      u2.lifetime_coins_earned = u.lifetime_coins_earned + max delta 0 ∧
      u2.coins = u.coins + delta ∧
      u.monthly_coins_earned ≤ u2.monthly_coins_earned ∧
      u.lifetime_coins_earned ≤ u2.lifetime_coins_earned ∧
      (delta < 0 →
        u2.monthly_coins_earned = u.monthly_coins_earned ∧
        u2.lifetime_coins_earned = u.lifetime_coins_earned) := by
  obtain ⟨h1, _⟩ := addCoins_findUser db uid delta u h
  refine ⟨_, h1, rfl, rfl, rfl, ?_, ?_, ?_⟩
  · exact le_add_of_nonneg_right (le_max_right delta 0)
  · exact le_add_of_nonneg_right (le_max_right delta 0)
  · intro hneg
    have : max delta 0 = 0 := max_eq_right (le_of_lt hneg)
    constructor <;> simp [this]

/-- Witness for C10: a debit of 5 on the fresh one-user store. -/
theorem claim_C10_witness :
    ∃ u2, findUser (addCoins db0 "u1" (-5)).1 "u1" = some u2 ∧
      u2.monthly_coins_earned = (freshAccount "u1").monthly_coins_earned +
        max (-5) 0 ∧
      u2.lifetime_coins_earned = (freshAccount "u1").lifetime_coins_earned +
        max (-5) 0 ∧
      u2.coins = (freshAccount "u1").coins + (-5) ∧
      (freshAccount "u1").monthly_coins_earned ≤ u2.monthly_coins_earned ∧
      (freshAccount "u1").lifetime_coins_earned ≤ u2.lifetime_coins_earned ∧
      ((-5 : Int) < 0 →
        u2.monthly_coins_earned = (freshAccount "u1").monthly_coins_earned ∧
        u2.lifetime_coins_earned = (freshAccount "u1").lifetime_coins_earned) :=
  claim_C10 db0 "u1" (-5) (freshAccount "u1") (by decide)

theorem list_find?_combined (l : List Account) (uid : String) (a : Int)
    (u : Account) (h : l.find? (fun v => v.uid == uid) = some u)
    (hnd : (l.map Account.uid).Nodup) :
    l.find? (fun v => v.uid == uid && decide (a ≤ v.coins))
      = if a ≤ u.coins then some u else none := by
  induction l with
  | nil => simp [List.find?] at h
  | cons b l ih =>
    simp only [List.find?] at h ⊢
    by_cases hb : (b.uid == uid) = true
    · rw [hb] at h
      have hbu : b = u := Option.some.inj h
      subst hbu
      by_cases hab : a ≤ b.coins
      · have hq : (b.uid == uid && decide (a ≤ b.coins)) = true := by
          simp [hb, hab]
        rw [hq, if_pos hab]
      · have hq : (b.uid == uid && decide (a ≤ b.coins)) = false := by
          simp [hab]
        rw [hq, if_neg hab]
        show List.find? (fun v => v.uid == uid && decide (a ≤ v.coins)) l = none
        rw [List.find?_eq_none]
        intro v hv
        have hbuid : b.uid = uid := by simpa using hb
        have hnotin : b.uid ∉ l.map Account.uid := (List.nodup_cons.mp hnd).1
        simp only [Bool.and_eq_true, beq_iff_eq, decide_eq_true_eq, not_and]
        intro hvuid _
        apply hnotin
        rw [hbuid, ← hvuid]
        exact List.mem_map_of_mem Account.uid hv
    · have hb2 : (b.uid == uid) = false := by simpa using hb
      rw [hb2] at h
      have hh : List.find? (fun v => v.uid == uid) l = some u := h
      have hq : (b.uid == uid && decide (a ≤ b.coins)) = false := by
        simp [hb2]
      rw [hq]
      exact ih hh (List.nodup_cons.mp hnd).2

theorem list_find?_map_debit (l : List Account) (uid : String) (a : Int)
    (u : Account) (h : l.find? (fun v => v.uid == uid) = some u)
    (hau : a ≤ u.coins) :
    (l.map (fun v => if v.uid == uid && decide (a ≤ v.coins) then
        { v with
          coins := v.coins - a
          lifetime_coins_spent := v.lifetime_coins_spent + a }
      else v)).find? (fun v => v.uid == uid)
      = some { u with
          coins := u.coins - a
          lifetime_coins_spent := u.lifetime_coins_spent + a } := by
  induction l with
  | nil => simp [List.find?] at h
  | cons b l ih =>
    simp only [List.find?] at h
    by_cases hb : (b.uid == uid) = true
    · rw [hb] at h
      have hbu : b = u := Option.some.inj h
      subst hbu
      have hq : (b.uid == uid && decide (a ≤ b.coins)) = true := by
        simp [hb, hau]
      rw [List.map_cons, if_pos hq]
      simp only [List.find?]
      rw [show ({ b with
          coins := b.coins - a
          lifetime_coins_spent := b.lifetime_coins_spent + a } : Account).uid
            == uid from hb]
    · have hb2 : (b.uid == uid) = false := by simpa using hb
      rw [hb2] at h
      have hh : List.find? (fun v => v.uid == uid) l = some u := h
      have hq : (b.uid == uid && decide (a ≤ b.coins)) = false := by
        simp [hb2]
      rw [List.map_cons, if_neg (by simp [hq])]
      simp only [List.find?]
      rw [hb2]
      exact ih hh

theorem addCoins_preserves_nonneg (db : DB) (uid : String) (delta : Int)
    (hd : 0 ≤ delta) (h : allBalancesNonneg db) :
    allBalancesNonneg (addCoins db uid delta).1 := by
  intro u2 hu2
  simp only [addCoins, updateUsers] at hu2
  obtain ⟨u, hu, rfl⟩ := List.mem_map.mp hu2
  by_cases hb : (u.uid == uid) = true
  · rw [if_pos hb]
    show 0 ≤ u.coins + delta
    exact add_nonneg (h u hu) hd
  · rw [if_neg hb]
    exact h u hu

theorem spendCoins_preserves_nonneg (db : DB) (uid : String) (amount : Int)
    (h : allBalancesNonneg db) :
    allBalancesNonneg (spendCoins db uid amount).1 := by
  intro u2 hu2
  simp only [spendCoins] at hu2
  split at hu2
  · exact h u2 hu2
  · split at hu2
    · obtain ⟨u, hu, rfl⟩ := List.mem_map.mp hu2
      by_cases hq : (u.uid == uid && decide (|amount| ≤ u.coins)) = true
      · rw [if_pos hq]
        show 0 ≤ u.coins - |amount|
        have : |amount| ≤ u.coins := by
          simp only [Bool.and_eq_true, decide_eq_true_eq] at hq
          exact hq.2
        omega
      · rw [if_neg hq]
        exact h u hu
    · exact h u2 hu2

theorem applyCoinOps_nonneg (ops : List CoinOp) : ∀ db : DB,
    allBalancesNonneg db → (∀ op ∈ ops, coinOpNonNegDelta op) →
    allBalancesNonneg (applyCoinOps db ops) := by
  induction ops with
  | nil =>
    intro db hdb _
    exact hdb
  | cons op ops ih =>
    intro db hdb hops
    show allBalancesNonneg (applyCoinOps (applyCoinOp db op) ops)
    apply ih
    · cases op with
      | add uid delta =>
        exact addCoins_preserves_nonneg db uid delta
          (hops (CoinOp.add uid delta) (List.mem_cons_self _ _)) hdb
      | spend uid amount => exact spendCoins_preserves_nonneg db uid amount hdb
    · intro o ho
      exact hops o (List.mem_cons_of_mem _ ho)

/-- C2 counterexample: the claim says adjustCoins (addCoins) clamps the result
at a zero minimum for every delta; on the fresh one-user store, a single
addCoins call with delta -5 stores the balance -5 < 0. -/
theorem claim_C2_counterexample :
    (findUser (addCoins db0 "u1" (-5)).1 "u1").map Account.coins
      = some (-5) ∧ ((-5 : Int) < 0) := by
  constructor
  · decide
  · decide

/-- C2 (amended): addCoins does NOT clamp at zero: it adds delta exactly, so
a negative delta below the balance drives the stored balance negative.
spendCoins fails with the insufficient-funds error exactly when
balance < |amount| (for a stored uid and nonzero amount) and otherwise
atomically debits |amount|.  Consequently the stored balances stay
non-negative for every sequence of addCoins/spendCoins calls in which every
addCoins delta is non-negative (but not for arbitrary deltas, per the
counterexample). -/
theorem claim_C2 (db : DB) (uid : String) (delta amount : Int) (u : Account)
    (h : findUser db uid = some u) (hnd : uidsNodup db) (ha : |amount| ≠ 0)
    (db2 : DB) (ops : List CoinOp) (hn : allBalancesNonneg db2)
    (hops : ∀ op ∈ ops, coinOpNonNegDelta op) :
    (∃ u2, findUser (addCoins db uid delta).1 uid = some u2 ∧
      u2.coins = u.coins + delta) ∧
    ((spendCoins db uid amount).2 = SpendOutcome.notEnoughCoins ↔
      u.coins < |amount|) ∧
    (u.coins < |amount| → (spendCoins db uid amount).1 = db) ∧
    (|amount| ≤ u.coins → ∃ u2,
      findUser (spendCoins db uid amount).1 uid = some u2 ∧
      u2.coins = u.coins - |amount|) ∧
    allBalancesNonneg (applyCoinOps db2 ops) := by
  have hfind := list_find?_combined db.users uid |amount| u h hnd
  refine ⟨?_, ?_, ?_, ?_, applyCoinOps_nonneg ops db2 hn hops⟩
  · obtain ⟨h1, _⟩ := addCoins_findUser db uid delta u h
    exact ⟨_, h1, rfl⟩
  · simp only [spendCoins, if_neg ha, hfind]
    by_cases hab : |amount| ≤ u.coins
    · rw [if_pos hab]
      simp only [reduceCtorEq, false_iff, not_lt]
      exact hab
    · rw [if_neg hab]
      simp only [true_iff]
      omega
  · intro hlt
    have hab : ¬ (|amount| ≤ u.coins) := by omega
    simp only [spendCoins, if_neg ha, hfind, if_neg hab]
  · intro hab
    simp only [spendCoins, if_neg ha, hfind, if_pos hab]
    refine ⟨{ u with
      coins := u.coins - |amount|
      lifetime_coins_spent := u.lifetime_coins_spent + |amount| }, ?_, rfl⟩
    show List.find? _ (List.map _ db.users) = _
    exact list_find?_map_debit db.users uid |amount| u h hab

/-- Witness for C2 on the fresh one-user store: delta -5, amount 3, and the
clamp-free sequence add 5 then spend 3. -/
theorem claim_C2_witness :
    (∃ u2, findUser (addCoins db0 "u1" (-5)).1 "u1" = some u2 ∧
      u2.coins = (freshAccount "u1").coins + (-5)) ∧
    ((spendCoins db0 "u1" 3).2 = SpendOutcome.notEnoughCoins ↔
      (freshAccount "u1").coins < |(3 : Int)|) ∧
    ((freshAccount "u1").coins < |(3 : Int)| → (spendCoins db0 "u1" 3).1 = db0) ∧
    (|(3 : Int)| ≤ (freshAccount "u1").coins → ∃ u2,
      findUser (spendCoins db0 "u1" 3).1 "u1" = some u2 ∧
      u2.coins = (freshAccount "u1").coins - |(3 : Int)|) ∧
    allBalancesNonneg (applyCoinOps db0
      [CoinOp.add "u1" 5, CoinOp.spend "u1" 3]) :=
  claim_C2 db0 "u1" (-5) 3 (freshAccount "u1") (by decide)
    (by show (List.map Account.uid db0.users).Nodup; decide)
    (by decide) db0 [CoinOp.add "u1" 5, CoinOp.spend "u1" 3]
    (by intro v hv
        rcases List.mem_singleton.mp hv with rfl
        decide)
    (by intro op hop
        rcases List.mem_cons.mp hop with rfl | hop2
        · show (0 : Int) ≤ 5
          norm_num
        · rcases List.mem_singleton.mp hop2 with rfl
          trivial)

@[simp] theorem updateUsers_reward_claims (db : DB) (uid : String)
    (f : Account → Account) :
    (updateUsers db uid f).reward_claims = db.reward_claims := rfl

@[simp] theorem updateUsers_level_rewards (db : DB) (uid : String)
    (f : Account → Account) :
    (updateUsers db uid f).level_rewards = db.level_rewards := rfl

@[simp] theorem updateUsers_monthly_payouts (db : DB) (uid : String)
    (f : Account → Account) :
    (updateUsers db uid f).monthly_payouts = db.monthly_payouts := rfl

@[simp] theorem updateUsers_user_ads (db : DB) (uid : String)
    (f : Account → Account) :
    (updateUsers db uid f).user_ads = db.user_ads := rfl

@[simp] theorem updateUsers_today (db : DB) (uid : String)
    (f : Account → Account) : (updateUsers db uid f).today = db.today := rfl

@[simp] theorem updateUsers_month (db : DB) (uid : String)
    (f : Account → Account) : (updateUsers db uid f).month = db.month := rfl

@[simp] theorem insertClaim_users (db : DB) (uid typ : String)
    (nonce : Option String) (amount : Int) :
    (insertClaim db uid typ nonce amount).users = db.users := rfl

@[simp] theorem insertClaim_level_rewards (db : DB) (uid typ : String)
    (nonce : Option String) (amount : Int) :
    (insertClaim db uid typ nonce amount).level_rewards = db.level_rewards := rfl

@[simp] theorem insertClaim_monthly_payouts (db : DB) (uid typ : String)
    (nonce : Option String) (amount : Int) :
    (insertClaim db uid typ nonce amount).monthly_payouts =
      db.monthly_payouts := rfl

@[simp] theorem insertClaim_user_ads (db : DB) (uid typ : String)
    (nonce : Option String) (amount : Int) :
    (insertClaim db uid typ nonce amount).user_ads = db.user_ads := rfl

@[simp] theorem insertClaim_today (db : DB) (uid typ : String)
    (nonce : Option String) (amount : Int) :
    (insertClaim db uid typ nonce amount).today = db.today := rfl

@[simp] theorem insertClaim_month (db : DB) (uid typ : String)
    (nonce : Option String) (amount : Int) :
    (insertClaim db uid typ nonce amount).month = db.month := rfl

@[simp] theorem insertClaim_reward_claims (db : DB) (uid typ : String)
    (nonce : Option String) (amount : Int) :
    (insertClaim db uid typ nonce amount).reward_claims =
      db.reward_claims ++ [⟨uid, typ, nonce, amount, db.today⟩] := rfl

@[simp] theorem findUser_insertClaim (db : DB) (uid typ : String)
    (nonce : Option String) (amount : Int) (uid2 : String) :
    findUser (insertClaim db uid typ nonce amount) uid2 = findUser db uid2 :=
  rfl

@[simp] theorem addCoins_fst_reward_claims (db : DB) (uid : String)
    (delta : Int) :
    (addCoins db uid delta).1.reward_claims = db.reward_claims := rfl

@[simp] theorem addCoins_fst_level_rewards (db : DB) (uid : String)
    (delta : Int) :
    (addCoins db uid delta).1.level_rewards = db.level_rewards := rfl

@[simp] theorem addCoins_fst_monthly_payouts (db : DB) (uid : String)
    (delta : Int) :
    (addCoins db uid delta).1.monthly_payouts = db.monthly_payouts := rfl

@[simp] theorem addCoins_fst_user_ads (db : DB) (uid : String) (delta : Int) :
    (addCoins db uid delta).1.user_ads = db.user_ads := rfl

@[simp] theorem addCoins_fst_today (db : DB) (uid : String) (delta : Int) :
    (addCoins db uid delta).1.today = db.today := rfl

@[simp] theorem addCoins_fst_month (db : DB) (uid : String) (delta : Int) :
    (addCoins db uid delta).1.month = db.month := rfl

@[simp] theorem recalc_reward_claims (db : DB) (uid : String) :
    (recalcAndStoreMonthlyRate db uid).reward_claims = db.reward_claims := by
  unfold recalcAndStoreMonthlyRate
  split <;> rfl

@[simp] theorem recalc_level_rewards (db : DB) (uid : String) :
    (recalcAndStoreMonthlyRate db uid).level_rewards = db.level_rewards := by
  unfold recalcAndStoreMonthlyRate
  split <;> rfl

@[simp] theorem recalc_monthly_payouts (db : DB) (uid : String) :
    (recalcAndStoreMonthlyRate db uid).monthly_payouts =
      db.monthly_payouts := by
  unfold recalcAndStoreMonthlyRate
  split <;> rfl

@[simp] theorem recalc_user_ads (db : DB) (uid : String) :
    (recalcAndStoreMonthlyRate db uid).user_ads = db.user_ads := by
  unfold recalcAndStoreMonthlyRate
  split <;> rfl

@[simp] theorem recalc_today (db : DB) (uid : String) :
    (recalcAndStoreMonthlyRate db uid).today = db.today := by
  unfold recalcAndStoreMonthlyRate
  split <;> rfl

@[simp] theorem recalc_month (db : DB) (uid : String) :
    (recalcAndStoreMonthlyRate db uid).month = db.month := by
  unfold recalcAndStoreMonthlyRate
  split <;> rfl

@[simp] theorem trackAdView_users (db : DB) (uid : String) (kind : AdKind) :
    (trackAdView db uid kind).users = db.users := by
  unfold trackAdView
  split <;> rfl

@[simp] theorem trackAdView_reward_claims (db : DB) (uid : String)
    (kind : AdKind) :
    (trackAdView db uid kind).reward_claims = db.reward_claims := by
  unfold trackAdView
  split <;> rfl

@[simp] theorem trackAdView_level_rewards (db : DB) (uid : String)
    (kind : AdKind) :
    (trackAdView db uid kind).level_rewards = db.level_rewards := by
  unfold trackAdView
  split <;> rfl

@[simp] theorem trackAdView_monthly_payouts (db : DB) (uid : String)
    (kind : AdKind) :
    (trackAdView db uid kind).monthly_payouts = db.monthly_payouts := by
  unfold trackAdView
  split <;> rfl

@[simp] theorem trackAdView_today (db : DB) (uid : String) (kind : AdKind) :
    (trackAdView db uid kind).today = db.today := by
  unfold trackAdView
  split <;> rfl

@[simp] theorem trackAdView_month (db : DB) (uid : String) (kind : AdKind) :
    (trackAdView db uid kind).month = db.month := by
  unfold trackAdView
  split <;> rfl

theorem findUser_trackAdView (db : DB) (uid : String) (kind : AdKind)
    (uid2 : String) :
    findUser (trackAdView db uid kind) uid2 = findUser db uid2 := by
  unfold findUser
  rw [trackAdView_users]

theorem findUser_recalc (db : DB) (uid : String) (u : Account)
    (h : findUser db uid = some u) :
    findUser (recalcAndStoreMonthlyRate db uid) uid = some
      { u with
        monthly_final_rate := (calcMonthlyRate u).1
        monthly_rate_breakdown := (calcMonthlyRate u).2 } := by
  unfold recalcAndStoreMonthlyRate
  rw [h]
  dsimp only
  rw [findUser_updateUsers_self db uid (fun v =>
    { v with
      monthly_final_rate := (calcMonthlyRate u).1
      monthly_rate_breakdown := (calcMonthlyRate u).2 }) (fun v => rfl), h]
  rfl

theorem claimDailyLogin_dup (db : DB) (uid : String)
    (hD : dailyClaimedToday db uid = true) :
    claimDailyLogin db uid = (db, { already := true, user := none }) := by
  simp only [claimDailyLogin]
  rw [if_pos hD]

theorem claimDailyLogin_fresh (db : DB) (uid : String)
    (hD : dailyClaimedToday db uid = false) :
    claimDailyLogin db uid =
      (recalcAndStoreMonthlyRate
        (updateUsers (addCoins (insertClaim db uid "daily_login" none 5) uid 5).1
          uid (fun v =>
            { v with monthly_login_days := v.monthly_login_days + 1 })) uid,
       { already := false
         user := (addCoins (insertClaim db uid "daily_login" none 5) uid 5).2 }) := by
  simp only [claimDailyLogin]
  rw [if_neg (by rw [hD]; exact Bool.false_ne_true)]

/-- C7: on an account with balance 0 that has not claimed today, the first
claimDailyLogin pays the fixed 5-coin bonus (balance 0 to 5) and reports
already=false; the guard predicate dailyClaimedToday (a function of uid and
the current day) then holds, so an immediate second call on the same day
reports already=true, changes nothing, and the balance stays 5. -/
theorem claim_C7 (db : DB) (uid : String) (u : Account)
    (h : findUser db uid = some u) (hu : u.coins = 0)
    (hnot : dailyClaimedToday db uid = false) :
    (claimDailyLogin db uid).2.already = false ∧
    (∃ u1, findUser (claimDailyLogin db uid).1 uid = some u1 ∧
      u1.coins = 5 ∧ u1.monthly_login_days = u.monthly_login_days + 1) ∧
    dailyClaimedToday (claimDailyLogin db uid).1 uid = true ∧
    (claimDailyLogin (claimDailyLogin db uid).1 uid).2.already = true ∧
    (claimDailyLogin (claimDailyLogin db uid).1 uid).1 =
      (claimDailyLogin db uid).1 ∧
    (∃ u1, findUser (claimDailyLogin (claimDailyLogin db uid).1 uid).1 uid
      = some u1 ∧ u1.coins = 5) := by
  have hcall := claimDailyLogin_fresh db uid hnot
  have h1 : findUser (insertClaim db uid "daily_login" none 5) uid = some u := h
  obtain ⟨hA, -⟩ :=
    addCoins_findUser (insertClaim db uid "daily_login" none 5) uid 5 u h1
  have hB := findUser_updateUsers_self
    (addCoins (insertClaim db uid "daily_login" none 5) uid 5).1 uid
    (fun v => { v with monthly_login_days := v.monthly_login_days + 1 })
    (fun v => rfl)
  rw [hA] at hB
  simp only [Option.map_some'] at hB
  have hC := findUser_recalc _ uid _ hB
  have hg2 : dailyClaimedToday (claimDailyLogin db uid).1 uid = true := by
    rw [hcall]
    simp [dailyClaimedToday, List.any_append]
  have hcall2 := claimDailyLogin_dup (claimDailyLogin db uid).1 uid hg2
  refine ⟨by rw [hcall], ?_, hg2, by rw [hcall2], by rw [hcall2], ?_⟩
  · rw [hcall]
    dsimp only
    exact ⟨_, hC, by simp [hu], rfl⟩
  · rw [hcall2]
    dsimp only
    rw [hcall]
    dsimp only
    exact ⟨_, hC, by simp [hu]⟩

/-- Witness for C7 on the fresh one-user store. -/
theorem claim_C7_witness :
    (claimDailyLogin db0 "u1").2.already = false ∧
    (∃ u1, findUser (claimDailyLogin db0 "u1").1 "u1" = some u1 ∧
      u1.coins = 5 ∧
      u1.monthly_login_days = (freshAccount "u1").monthly_login_days + 1) ∧
    dailyClaimedToday (claimDailyLogin db0 "u1").1 "u1" = true ∧
    (claimDailyLogin (claimDailyLogin db0 "u1").1 "u1").2.already = true ∧
    (claimDailyLogin (claimDailyLogin db0 "u1").1 "u1").1 =
      (claimDailyLogin db0 "u1").1 ∧
    (∃ u1, findUser (claimDailyLogin (claimDailyLogin db0 "u1").1 "u1").1 "u1"
      = some u1 ∧ u1.coins = 5) :=
  claim_C7 db0 "u1" (freshAccount "u1") (by decide) (by decide) (by decide)

theorem claimLevelComplete_dup (db : DB) (uid : String) (level : Nat)
    (hD : hasLevelMarker db uid level = true) :
    claimLevelComplete db uid level = (db, { already := true, user := none }) := by
  simp only [claimLevelComplete]
  rw [if_pos hD]

theorem claimLevelComplete_fresh (db : DB) (uid : String) (level : Nat)
    (hD : hasLevelMarker db uid level = false) :
    claimLevelComplete db uid level =
      (recalcAndStoreMonthlyRate
        (updateUsers
          (addCoins { db with level_rewards := db.level_rewards ++ [(uid, level)] }
            uid 1).1
          uid (fun v =>
            { v with
              monthly_levels_completed := v.monthly_levels_completed + 1
              lifetime_levels_completed := v.lifetime_levels_completed + 1 })) uid,
       { already := false
         user := (addCoins
           { db with level_rewards := db.level_rewards ++ [(uid, level)] }
           uid 1).2 }) := by
  simp only [claimLevelComplete]
  rw [if_neg (by rw [hD]; exact Bool.false_ne_true)]

/-- C8: when the (uid, level) marker is absent, claimLevelComplete inserts the
marker exactly once and pays the fixed 1-coin bonus; a second call for the
same pair returns the already-claimed result (already=true), changes nothing,
leaves the balance at its post-bonus value, and inserts no second marker row:
the bonus is paid at most once per level per account. -/
theorem claim_C8 (db : DB) (uid : String) (level : Nat) (u : Account)
    (h : findUser db uid = some u)
    (hmark : hasLevelMarker db uid level = false) :
    (claimLevelComplete db uid level).2.already = false ∧
    (∃ u1, findUser (claimLevelComplete db uid level).1 uid = some u1 ∧
      u1.coins = u.coins + 1) ∧
    levelMarkerCount (claimLevelComplete db uid level).1 uid level = 1 ∧
    (claimLevelComplete (claimLevelComplete db uid level).1 uid level).2.already
      = true ∧
    (claimLevelComplete (claimLevelComplete db uid level).1 uid level).1 =
      (claimLevelComplete db uid level).1 ∧
    (∃ u1, findUser
        (claimLevelComplete (claimLevelComplete db uid level).1 uid level).1 uid
      = some u1 ∧ u1.coins = u.coins + 1) ∧
    levelMarkerCount
      (claimLevelComplete (claimLevelComplete db uid level).1 uid level).1 uid
      level = 1 := by
  have hcall := claimLevelComplete_fresh db uid level hmark
  have hfilter : db.level_rewards.filter
      (fun r => r.1 == uid && r.2 == level) = [] := by
    rw [List.filter_eq_nil_iff]
    intro r hr
    have := List.any_eq_false.mp hmark r hr
    simp only [this]
    exact Bool.false_ne_true
  have h1 : findUser
      { db with level_rewards := db.level_rewards ++ [(uid, level)] } uid
      = some u := h
  obtain ⟨hA, -⟩ := addCoins_findUser
    { db with level_rewards := db.level_rewards ++ [(uid, level)] } uid 1 u h1
  have hB := findUser_updateUsers_self
    (addCoins { db with level_rewards := db.level_rewards ++ [(uid, level)] }
      uid 1).1 uid
    (fun v =>
      { v with
        monthly_levels_completed := v.monthly_levels_completed + 1
        lifetime_levels_completed := v.lifetime_levels_completed + 1 })
    (fun v => rfl)
  rw [hA] at hB
  simp only [Option.map_some'] at hB
  have hC := findUser_recalc _ uid _ hB
  have hcount : levelMarkerCount (claimLevelComplete db uid level).1 uid level
      = 1 := by
    rw [hcall]
    simp [levelMarkerCount, List.filter_append, hfilter]
  have hg2 : hasLevelMarker (claimLevelComplete db uid level).1 uid level
      = true := by
    rw [hcall]
    simp [hasLevelMarker, List.any_append]
  have hcall2 := claimLevelComplete_dup (claimLevelComplete db uid level).1 uid
    level hg2
  refine ⟨by rw [hcall], ?_, hcount, by rw [hcall2], by rw [hcall2], ?_, ?_⟩
  · rw [hcall]
    dsimp only
    exact ⟨_, hC, rfl⟩
  · rw [hcall2]
    dsimp only
    rw [hcall]
    dsimp only
    exact ⟨_, hC, rfl⟩
  · rw [hcall2]
    dsimp only
    exact hcount

/-- Witness for C8 on the fresh one-user store, level 42. -/
theorem claim_C8_witness :
    (claimLevelComplete db0 "u1" 42).2.already = false ∧
    (∃ u1, findUser (claimLevelComplete db0 "u1" 42).1 "u1" = some u1 ∧
      u1.coins = (freshAccount "u1").coins + 1) ∧
    levelMarkerCount (claimLevelComplete db0 "u1" 42).1 "u1" 42 = 1 ∧
    (claimLevelComplete (claimLevelComplete db0 "u1" 42).1 "u1" 42).2.already
      = true ∧
    (claimLevelComplete (claimLevelComplete db0 "u1" 42).1 "u1" 42).1 =
      (claimLevelComplete db0 "u1" 42).1 ∧
    (∃ u1, findUser
        (claimLevelComplete (claimLevelComplete db0 "u1" 42).1 "u1" 42).1 "u1"
      = some u1 ∧ u1.coins = (freshAccount "u1").coins + 1) ∧
    levelMarkerCount
      (claimLevelComplete (claimLevelComplete db0 "u1" 42).1 "u1" 42).1 "u1" 42
      = 1 :=
  claim_C8 db0 "u1" 42 (freshAccount "u1") (by decide) (by decide)

theorem claimReward_dup (db : DB) (uid typ nonce : String) (amount : Int)
    (c : Nat) (hD : hasNonce db uid nonce = true) :
    claimReward db uid typ nonce amount c =
      (db, { already := true, user := none }) := by
  simp only [claimReward]
  rw [if_pos hD]

theorem claimReward_fresh (db : DB) (uid typ nonce : String) (amount : Int)
    (c : Nat) (hD : hasNonce db uid nonce = false) :
    claimReward db uid typ nonce amount c =
      (if (typ == "ad_50" || typ == "ad") = true then
        recalcAndStoreMonthlyRate
          (updateUsers
            (addCoins (insertClaim db uid typ (some nonce) amount) uid amount).1
            uid (fun v =>
              { v with monthly_ads_watched := v.monthly_ads_watched + 1 })) uid
      else (addCoins (insertClaim db uid typ (some nonce) amount) uid amount).1,
       { already := false
         user := (addCoins (insertClaim db uid typ (some nonce) amount) uid
           amount).2 }) := by
  simp only [claimReward]
  rw [if_neg (by rw [hD]; exact Bool.false_ne_true)]

theorem nonceCount_zero_of_not_hasNonce (db : DB) (uid nonce : String)
    (h : hasNonce db uid nonce = false) : nonceCount db uid nonce = 0 := by
  unfold nonceCount
  have : db.reward_claims.filter
      (fun cl => cl.uid == uid && cl.nonce == some nonce) = [] := by
    rw [List.filter_eq_nil_iff]
    intro cl hcl
    have := List.any_eq_false.mp h cl hcl
    simp only [this]
    exact Bool.false_ne_true
  rw [this]
  rfl

/-- C1 (amended): with no ledger row for (uid, nonce), the first claimReward
call inserts exactly one reward_claims row for the nonce and mutates the
balance exactly once (by amount); every subsequent identical call leaves the
store exactly as after the first call, keeps the single ledger row, and
returns already=true with NO account state (user absent) — the claim text
incorrectly promised the current account state on the duplicate path. -/
theorem claim_C1 (db : DB) (uid typ nonce : String) (amount : Int) (c : Nat)
    (u : Account) (h : findUser db uid = some u)
    (hnonce : hasNonce db uid nonce = false) :
    nonceCount (claimReward db uid typ nonce amount c).1 uid nonce = 1 ∧
    (∃ u1, findUser (claimReward db uid typ nonce amount c).1 uid = some u1 ∧
      u1.coins = u.coins + amount) ∧
    (claimReward db uid typ nonce amount c).2.already = false ∧
    (∀ n, 1 ≤ n →
      iterState (fun d => claimReward d uid typ nonce amount c) n db
        = (claimReward db uid typ nonce amount c).1) ∧
    (∀ n, 1 ≤ n →
      nonceCount
        (iterState (fun d => claimReward d uid typ nonce amount c) n db)
        uid nonce = 1) ∧
    (∀ n, 1 ≤ n →
      (claimReward
        (iterState (fun d => claimReward d uid typ nonce amount c) n db)
        uid typ nonce amount c).2 = { already := true, user := none }) := by
  have hcall := claimReward_fresh db uid typ nonce amount c hnonce
  have hcount0 := nonceCount_zero_of_not_hasNonce db uid nonce hnonce
  have hfilter : db.reward_claims.filter
      (fun cl => cl.uid == uid && cl.nonce == some nonce) = [] := by
    have := hcount0
    unfold nonceCount at this
    exact List.length_eq_zero.mp this
  have hcount1 : nonceCount (claimReward db uid typ nonce amount c).1 uid nonce
      = 1 := by
    rw [hcall]
    by_cases had : (typ == "ad_50" || typ == "ad") = true
    · rw [if_pos had]
      simp [nonceCount, List.filter_append, hfilter]
    · rw [if_neg had]
      simp [nonceCount, List.filter_append, hfilter]
  have hN1 : hasNonce (claimReward db uid typ nonce amount c).1 uid nonce
      = true := by
    rw [hcall]
    by_cases had : (typ == "ad_50" || typ == "ad") = true
    · rw [if_pos had]
      simp [hasNonce, List.any_append]
    · rw [if_neg had]
      simp [hasNonce, List.any_append]
  have hbal : ∃ u1,
      findUser (claimReward db uid typ nonce amount c).1 uid = some u1 ∧
      u1.coins = u.coins + amount := by
    have h1 : findUser (insertClaim db uid typ (some nonce) amount) uid
        = some u := h
    obtain ⟨hA, -⟩ := addCoins_findUser
      (insertClaim db uid typ (some nonce) amount) uid amount u h1
    rw [hcall]
    by_cases had : (typ == "ad_50" || typ == "ad") = true
    · rw [if_pos had]
      dsimp only
      have hB := findUser_updateUsers_self
        (addCoins (insertClaim db uid typ (some nonce) amount) uid amount).1 uid
        (fun v => { v with monthly_ads_watched := v.monthly_ads_watched + 1 })
        (fun v => rfl)
      rw [hA] at hB
      simp only [Option.map_some'] at hB
      have hC := findUser_recalc _ uid _ hB
      exact ⟨_, hC, rfl⟩
    · rw [if_neg had]
      exact ⟨_, hA, rfl⟩
  have hiter : ∀ n, 1 ≤ n →
      iterState (fun d => claimReward d uid typ nonce amount c) n db
        = (claimReward db uid typ nonce amount c).1 := by
    intro n hn
    induction n with
    | zero => omega
    | succ m ih =>
      by_cases hm : 1 ≤ m
      · show (claimReward
          (iterState (fun d => claimReward d uid typ nonce amount c) m db)
          uid typ nonce amount c).1 = _
        rw [ih hm, claimReward_dup _ uid typ nonce amount c hN1]
      · have hm0 : m = 0 := by omega
        subst hm0
        rfl
  refine ⟨hcount1, hbal, by rw [hcall], hiter, ?_, ?_⟩
  · intro n hn
    rw [hiter n hn]
    exact hcount1
  · intro n hn
    rw [hiter n hn, claimReward_dup _ uid typ nonce amount c hN1]

/-- Witness for C1 on the fresh one-user store, type bonus, nonce n1,
amount 7. -/
theorem claim_C1_witness :
    nonceCount (claimReward db0 "u1" "bonus" "n1" 7 0).1 "u1" "n1" = 1 ∧
    (∃ u1, findUser (claimReward db0 "u1" "bonus" "n1" 7 0).1 "u1" = some u1 ∧
      u1.coins = (freshAccount "u1").coins + 7) ∧
    (claimReward db0 "u1" "bonus" "n1" 7 0).2.already = false ∧
    (∀ n, 1 ≤ n →
      iterState (fun d => claimReward d "u1" "bonus" "n1" 7 0) n db0
        = (claimReward db0 "u1" "bonus" "n1" 7 0).1) ∧
    (∀ n, 1 ≤ n →
      nonceCount (iterState (fun d => claimReward d "u1" "bonus" "n1" 7 0) n db0)
        "u1" "n1" = 1) ∧
    (∀ n, 1 ≤ n →
      (claimReward
        (iterState (fun d => claimReward d "u1" "bonus" "n1" 7 0) n db0)
        "u1" "bonus" "n1" 7 0).2 = { already := true, user := none }) :=
  claim_C1 db0 "u1" "bonus" "n1" 7 0 (freshAccount "u1") (by decide) (by decide)

/-- C1 counterexample: the claim says a duplicate call returns already=true
together with the current account state, and that all N calls return the same
final account state; on the fresh one-user store the second identical call
returns user = none (no account state at all) even though the account exists. -/
theorem claim_C1_counterexample :
    (claimReward (claimReward db0 "u1" "bonus" "n1" 7 0).1
      "u1" "bonus" "n1" 7 0).2.already = true ∧
    (claimReward (claimReward db0 "u1" "bonus" "n1" 7 0).1
      "u1" "bonus" "n1" 7 0).2.user = none ∧
    (findUser (claimReward (claimReward db0 "u1" "bonus" "n1" 7 0).1
      "u1" "bonus" "n1" 7 0).1 "u1").isSome = true ∧
    (claimReward db0 "u1" "bonus" "n1" 7 0).2.user ≠
      (claimReward (claimReward db0 "u1" "bonus" "n1" 7 0).1
        "u1" "bonus" "n1" 7 0).2.user := by
  refine ⟨by decide, by decide, by decide, by decide⟩

/-- C3 counterexample: the claim says closeMonthAndResetCoins resets the
monthly counters to 0; on the one-user store with coins 120 and
monthly_login_days 4, after the close the account has coins 0 but
monthly_login_days still 4 — the UPDATE only zeroes coins and stamps
coins_month, it touches no monthly counter. -/
theorem claim_C3_counterexample :
    (findUser (closeMonthAndResetCoins dbC3 "2026-01") "u1").map
      (fun v => (v.coins, v.monthly_login_days)) = some (0, 4) ∧ (4 : Nat) ≠ 0 := by
  refine ⟨by decide, by decide⟩

/-- C3 (amended): on a store holding one account with nonzero coins and no
(uid, month) payout row, closeMonthAndResetCoins inserts exactly one
monthly_payouts row carrying the pre-call balance, zeroes the balance and
stamps coins_month — but leaves every monthly counter unchanged (the claim
text incorrectly said the counters are reset).  A second run for the same
month is a no-op: the account, now at zero coins, is not selected, so no
duplicate payout row appears and nothing changes. -/
theorem claim_C3 (u : Account) (db : DB) (month : String)
    (hdb : db.users = [u]) (hne : u.coins ≠ 0)
    (hp : db.monthly_payouts.filter
      (fun p => p.uid == u.uid && p.month == month) = []) :
    ((closeMonthAndResetCoins db month).monthly_payouts.filter
      (fun p => p.uid == u.uid && p.month == month))
      = [⟨u.uid, month, u.coins, "pending"⟩] ∧
    payoutCount (closeMonthAndResetCoins db month) u.uid month = 1 ∧
    findUser (closeMonthAndResetCoins db month) u.uid =
      some { u with coins := 0, coins_month := some month } ∧
    closeMonthAndResetCoins (closeMonthAndResetCoins db month) month =
      closeMonthAndResetCoins db month := by
  have hany : db.monthly_payouts.any
      (fun p => p.uid == u.uid && p.month == month) = false := by
    rw [List.any_eq_false]
    intro p hpm
    exact List.filter_eq_nil_iff.mp hp p hpm
  have hrows : (db.users.filter (fun v => !(v.coins == 0))).map
      (fun v => (v.uid, v.coins)) = [(u.uid, u.coins)] := by
    rw [hdb]
    simp [hne]
  have hclose : closeMonthAndResetCoins db month =
      updateUsers
        { db with monthly_payouts :=
            db.monthly_payouts ++ [⟨u.uid, month, u.coins, "pending"⟩] }
        u.uid (fun v => { v with coins := 0, coins_month := some month }) := by
    unfold closeMonthAndResetCoins
    rw [hrows]
    simp only [List.foldl_cons, List.foldl_nil]
    simp only [closeMonthStep]
    rw [hany]
    rfl
  have hfu : findUser db u.uid = some u := by
    unfold findUser
    rw [hdb]
    simp [List.find?]
  have hfu1 : findUser
      { db with monthly_payouts :=
          db.monthly_payouts ++ [⟨u.uid, month, u.coins, "pending"⟩] } u.uid
      = some u := hfu
  have hfind : findUser (closeMonthAndResetCoins db month) u.uid =
      some { u with coins := 0, coins_month := some month } := by
    rw [hclose]
    rw [findUser_updateUsers_self _ u.uid
      (fun v => { v with coins := 0, coins_month := some month })
      (fun v => rfl), hfu1]
    rfl
  have hpay : (closeMonthAndResetCoins db month).monthly_payouts =
      db.monthly_payouts ++ [⟨u.uid, month, u.coins, "pending"⟩] := by
    rw [hclose]
    rfl
  have hfilter1 : ((closeMonthAndResetCoins db month).monthly_payouts.filter
      (fun p => p.uid == u.uid && p.month == month))
      = [⟨u.uid, month, u.coins, "pending"⟩] := by
    rw [hpay, List.filter_append, hp]
    simp
  refine ⟨hfilter1, ?_, hfind, ?_⟩
  · unfold payoutCount
    rw [hfilter1]
    rfl
  · have husers : (closeMonthAndResetCoins db month).users =
        [{ u with coins := 0, coins_month := some month }] := by
      rw [hclose]
      show (db.users.map _) = _
      rw [hdb]
      simp [List.map]
    generalize closeMonthAndResetCoins db month = D at husers ⊢
    unfold closeMonthAndResetCoins
    rw [husers]
    simp [List.filter]

/-- Witness for C3 on the one-user store with coins 120, month 2026-01. -/
theorem claim_C3_witness :
    ((closeMonthAndResetCoins dbC3 "2026-01").monthly_payouts.filter
      (fun p => p.uid == acctC3.uid && p.month == "2026-01"))
      = [⟨acctC3.uid, "2026-01", acctC3.coins, "pending"⟩] ∧
    payoutCount (closeMonthAndResetCoins dbC3 "2026-01") acctC3.uid "2026-01"
      = 1 ∧
    findUser (closeMonthAndResetCoins dbC3 "2026-01") acctC3.uid =
      some { acctC3 with coins := 0, coins_month := some "2026-01" } ∧
    closeMonthAndResetCoins (closeMonthAndResetCoins dbC3 "2026-01") "2026-01" =
      closeMonthAndResetCoins dbC3 "2026-01" :=
  claim_C3 acctC3 dbC3 "2026-01" (by decide) (by decide) (by decide)

theorem consume_free_succ (k : Item) (db : DB) (uid : String) (v : Account)
    (hv : findUser db uid = some v) (hlt : freeUsed k v < 3) :
    ∃ v1, findUser (consumeItem db uid k SpendMode.free none).1 uid = some v1 ∧
      freeUsed k v1 = freeUsed k v + 1 ∧ v1.coins = v.coins ∧
      ∃ w, (consumeItem db uid k SpendMode.free none).2
        = ConsumeOutcome.ok false (some w) := by
  cases k with
  | restart =>
    have hlt2 : v.free_restarts_used < 3 := hlt
    have hfind := findUser_updateUsers_self db uid
      (fun w => { w with free_restarts_used := w.free_restarts_used + 1 })
      (fun w => rfl)
    rw [hv] at hfind
    simp only [Option.map_some'] at hfind
    simp only [consumeItem, useRestarts]
    rw [hv]
    dsimp only
    rw [if_neg (by omega)]
    exact ⟨_, hfind, rfl, rfl, ⟨_, by rw [hfind]⟩⟩
  | skip =>
    have hlt2 : v.free_skips_used < 3 := hlt
    have h1 := findUser_updateUsers_self db uid
      (fun w => { w with free_skips_used := w.free_skips_used + 1 })
      (fun w => rfl)
    rw [hv] at h1
    simp only [Option.map_some'] at h1
    have h2 := findUser_updateUsers_self
      (updateUsers db uid
        (fun w => { w with free_skips_used := w.free_skips_used + 1 })) uid
      (fun w => { w with monthly_skips_used := w.monthly_skips_used + 1 })
      (fun w => rfl)
    rw [h1] at h2
    simp only [Option.map_some'] at h2
    have h3 := findUser_recalc _ uid _ h2
    simp only [consumeItem, useSkip]
    rw [hv]
    dsimp only
    rw [if_neg (by omega)]
    exact ⟨_, h3, rfl, rfl, ⟨_, by rw [h1]⟩⟩
  | hint =>
    have hlt2 : v.free_hints_used < 3 := hlt
    have hfind := findUser_updateUsers_self db uid
      (fun w => { w with free_hints_used := w.free_hints_used + 1 })
      (fun w => rfl)
    rw [hv] at hfind
    simp only [Option.map_some'] at hfind
    simp only [consumeItem, useHint]
    rw [hv]
    dsimp only
    rw [if_neg (by simp only [getFreeHintsLeft]; omega)]
    exact ⟨_, hfind, rfl, rfl, ⟨_, by rw [hfind]⟩⟩

theorem consume_free_fail (k : Item) (db : DB) (uid : String) (v : Account)
    (hv : findUser db uid = some v) (hge : 3 ≤ freeUsed k v) :
    consumeItem db uid k SpendMode.free none = (db, noFreeUsesLeftFailure k) := by
  cases k with
  | restart =>
    have hge2 : 3 ≤ v.free_restarts_used := hge
    simp only [consumeItem, useRestarts]
    rw [hv]
    dsimp only
    rw [if_pos (by omega)]
    rfl
  | skip =>
    have hge2 : 3 ≤ v.free_skips_used := hge
    simp only [consumeItem, useSkip]
    rw [hv]
    dsimp only
    rw [if_pos (by omega)]
    rfl
  | hint =>
    have hge2 : 3 ≤ v.free_hints_used := hge
    simp only [consumeItem, useHint]
    rw [hv]
    dsimp only
    rw [if_pos (by simp only [getFreeHintsLeft]; omega)]
    rfl

/-- C5: for each consumable kind, starting from a zero free-usage counter,
free-mode consume succeeds on calls 1..3 — each success raising the counter by
one (1, 2, 3) and never touching the balance — and from the 4th call on every
free-mode call fails with the NoFreeUsesLeftError shape of that kind, leaving
the store (counter and balance included) exactly as after the 3rd call. -/
theorem claim_C5 (k : Item) (db : DB) (uid : String) (u : Account)
    (h : findUser db uid = some u) (h0 : freeUsed k u = 0) :
    (∀ n, n ≤ 3 → ∃ u1,
      findUser
        (iterState (fun d => consumeItem d uid k SpendMode.free none) n db) uid
        = some u1 ∧ freeUsed k u1 = n ∧ u1.coins = u.coins) ∧
    (∀ n, n < 3 → ∃ w,
      (consumeItem
        (iterState (fun d => consumeItem d uid k SpendMode.free none) n db)
        uid k SpendMode.free none).2 = ConsumeOutcome.ok false (some w)) ∧
    (∀ n, 3 ≤ n →
      iterState (fun d => consumeItem d uid k SpendMode.free none) n db
        = iterState (fun d => consumeItem d uid k SpendMode.free none) 3 db ∧
      consumeItem
        (iterState (fun d => consumeItem d uid k SpendMode.free none) n db)
        uid k SpendMode.free none
        = (iterState (fun d => consumeItem d uid k SpendMode.free none) 3 db,
           noFreeUsesLeftFailure k)) := by
  have hstate : ∀ n, n ≤ 3 → ∃ u1,
      findUser
        (iterState (fun d => consumeItem d uid k SpendMode.free none) n db) uid
        = some u1 ∧ freeUsed k u1 = n ∧ u1.coins = u.coins := by
    intro n
    induction n with
    | zero =>
      intro _
      exact ⟨u, h, h0, rfl⟩
    | succ m ih =>
      intro hm3
      obtain ⟨um, hum, hfm, hcm⟩ := ih (by omega)
      obtain ⟨v1, hv1, hf1, hc1, -⟩ :=
        consume_free_succ k _ uid um hum (by omega)
      exact ⟨v1, hv1, by omega, by rw [hc1, hcm]⟩
  have hsucc : ∀ n, n < 3 → ∃ w,
      (consumeItem
        (iterState (fun d => consumeItem d uid k SpendMode.free none) n db)
        uid k SpendMode.free none).2 = ConsumeOutcome.ok false (some w) := by
    intro n hn
    obtain ⟨um, hum, hfm, -⟩ := hstate n (by omega)
    obtain ⟨-, -, -, -, w, hw⟩ := consume_free_succ k _ uid um hum (by omega)
    exact ⟨w, hw⟩
  obtain ⟨u3, hu3, hf3, -⟩ := hstate 3 le_rfl
  have hfix : ∀ n, 3 ≤ n →
      iterState (fun d => consumeItem d uid k SpendMode.free none) n db
        = iterState (fun d => consumeItem d uid k SpendMode.free none) 3 db := by
    intro n hn
    induction n with
    | zero => omega
    | succ m ih =>
      by_cases hm : 3 ≤ m
      · have heq := ih hm
        show (consumeItem
          (iterState (fun d => consumeItem d uid k SpendMode.free none) m db)
          uid k SpendMode.free none).1 = _
        rw [heq, consume_free_fail k _ uid u3 hu3 (by omega)]
      · have hm3 : m + 1 = 3 := by omega
        rw [hm3]
  refine ⟨hstate, hsucc, ?_⟩
  intro n hn
  refine ⟨hfix n hn, ?_⟩
  rw [hfix n hn, consume_free_fail k _ uid u3 hu3 (by omega)]

/-- Witness for C5: the skip kind on the fresh one-user store. -/
theorem claim_C5_witness :
    (∀ n, n ≤ 3 → ∃ u1,
      findUser
        (iterState (fun d => consumeItem d "u1" Item.skip SpendMode.free none)
          n db0) "u1"
        = some u1 ∧ freeUsed Item.skip u1 = n ∧
        u1.coins = (freshAccount "u1").coins) ∧
    (∀ n, n < 3 → ∃ w,
      (consumeItem
        (iterState (fun d => consumeItem d "u1" Item.skip SpendMode.free none)
          n db0)
        "u1" Item.skip SpendMode.free none).2
        = ConsumeOutcome.ok false (some w)) ∧
    (∀ n, 3 ≤ n →
      iterState (fun d => consumeItem d "u1" Item.skip SpendMode.free none) n db0
        = iterState (fun d => consumeItem d "u1" Item.skip SpendMode.free none)
            3 db0 ∧
      consumeItem
        (iterState (fun d => consumeItem d "u1" Item.skip SpendMode.free none)
          n db0)
        "u1" Item.skip SpendMode.free none
        = (iterState (fun d => consumeItem d "u1" Item.skip SpendMode.free none)
            3 db0,
           noFreeUsesLeftFailure Item.skip)) :=
  claim_C5 Item.skip db0 "u1" (freshAccount "u1") (by decide) (by decide)

theorem list_find?_map_ite_gen {α : Type} (l : List α) (p : α → Bool)
    (g : α → α) (hg : ∀ x, p (g x) = p x) :
    (l.map (fun x => if p x then g x else x)).find? p = (l.find? p).map g := by
  induction l with
  | nil => rfl
  | cons a l ih =>
    by_cases h : p a = true
    · rw [List.map_cons, if_pos h]
      simp only [List.find?]
      rw [hg a, h]
      rfl
    · have hb : p a = false := by simpa using h
      rw [List.map_cons, if_neg h]
      simp only [List.find?]
      rw [hb]
      exact ih

theorem list_map_ite_of_find?_none {α : Type} (l : List α) (p : α → Bool)
    (g : α → α) (h : l.find? p = none) :
    l.map (fun x => if p x then g x else x) = l := by
  induction l with
  | nil => rfl
  | cons a l ih =>
    simp only [List.find?] at h
    by_cases hp : p a = true
    · rw [hp] at h
      exact Option.noConfusion h
    · have hb : p a = false := by simpa using hp
      rw [hb] at h
      rw [List.map_cons, if_neg hp, ih h]

theorem list_find?_append_of_none {α : Type} (l1 l2 : List α) (p : α → Bool)
    (h : l1.find? p = none) : (l1 ++ l2).find? p = l2.find? p := by
  induction l1 with
  | nil => rfl
  | cons a l ih =>
    rw [List.cons_append]
    simp only [List.find?] at h ⊢
    by_cases hp : p a = true
    · rw [hp] at h
      exact Option.noConfusion h
    · have hb : p a = false := by simpa using hp
      rw [hb] at h ⊢
      exact ih h

theorem adsRow_trackAdView (db : DB) (uid : String) (kind : AdKind) :
    adsRow (trackAdView db uid kind) uid =
      some (adsBump kind
        ((adsRow db uid).getD ⟨uid, db.month, 0, 0, 0, 0⟩)) := by
  unfold adsRow trackAdView
  cases hrow : db.user_ads.find?
      (fun r => r.uid == uid && r.month == db.month) with
  | some r0 =>
    have hpred := @List.find?_some UserAds
      (fun r => r.uid == uid && r.month == db.month) r0 db.user_ads hrow
    have hany : db.user_ads.any
        (fun r => r.uid == uid && r.month == db.month) = true := by
      rw [List.any_eq_true]
      exact ⟨r0, List.mem_of_find?_eq_some hrow, by simpa using hpred⟩
    rw [if_pos hany]
    dsimp only
    rw [list_find?_map_ite_gen _ _ _ (fun x => by cases kind <;> rfl), hrow]
    rfl
  | none =>
    have hany : db.user_ads.any
        (fun r => r.uid == uid && r.month == db.month) = false := by
      rw [List.any_eq_false]
      intro x hx
      have := List.find?_eq_none.mp hrow x hx
      simpa using this
    rw [if_neg (by rw [hany]; exact Bool.false_ne_true)]
    dsimp only
    rw [List.map_append, list_map_ite_of_find?_none _ _ _ hrow]
    have hfresh : ((fun (r : UserAds) => r.uid == uid && r.month == db.month)
        (⟨uid, db.month, 0, 0, 0, 0⟩ : UserAds)) = true := by
      simp
    rw [list_find?_append_of_none _ _ _ hrow]
    simp only [List.map_cons, List.map_nil]
    rw [if_pos hfresh]
    simp only [List.find?]
    rw [show ((adsBump kind (⟨uid, db.month, 0, 0, 0, 0⟩ : UserAds)).uid == uid
        && (adsBump kind (⟨uid, db.month, 0, 0, 0, 0⟩ : UserAds)).month
          == db.month) = true from by cases kind <;> simp [adsBump]]
    rfl

theorem adsRow_updateUsers (db : DB) (uid : String) (f : Account → Account)
    (uid2 : String) : adsRow (updateUsers db uid f) uid2 = adsRow db uid2 := rfl

theorem adsRow_recalc (db : DB) (uid uid2 : String) :
    adsRow (recalcAndStoreMonthlyRate db uid) uid2 = adsRow db uid2 := by
  unfold adsRow recalcAndStoreMonthlyRate
  split <;> rfl

theorem useSkip_ad_missing (db : DB) (uid : String) (u : Account)
    (h : findUser db uid = some u) :
    consumeItem db uid Item.skip SpendMode.ad none =
      (db, ConsumeOutcome.thrown "Missing nonce") := by
  simp only [consumeItem, useSkip]
  rw [h]

theorem useHint_ad_missing (db : DB) (uid : String) (u : Account)
    (h : findUser db uid = some u) :
    consumeItem db uid Item.hint SpendMode.ad none =
      (db, ConsumeOutcome.thrown "Missing nonce") := by
  simp only [consumeItem, useHint]
  rw [h]

theorem useRestarts_ad (db : DB) (uid : String) (u : Account)
    (h : findUser db uid = some u) (nonce : Option String) :
    consumeItem db uid Item.restart SpendMode.ad nonce =
      (db, ConsumeOutcome.undef) := by
  simp only [consumeItem, useRestarts]
  rw [h]

theorem useSkip_ad_dup (db : DB) (uid nn : String) (u : Account)
    (h : findUser db uid = some u)
    (hT : hasTypedNonce db uid "skip_ad" nn = true) :
    consumeItem db uid Item.skip SpendMode.ad (some nn) =
      (db, ConsumeOutcome.ok true (some u)) := by
  simp only [consumeItem, useSkip]
  rw [h]
  dsimp only
  rw [if_pos hT]

theorem useHint_ad_dup (db : DB) (uid nn : String) (u : Account)
    (h : findUser db uid = some u)
    (hT : hasTypedNonce db uid "hint_ad" nn = true) :
    consumeItem db uid Item.hint SpendMode.ad (some nn) =
      (db, ConsumeOutcome.ok true (some u)) := by
  simp only [consumeItem, useHint]
  rw [h]
  dsimp only
  rw [if_pos hT]

theorem useSkip_ad_fresh (db : DB) (uid nn : String) (u : Account)
    (h : findUser db uid = some u)
    (hT : hasTypedNonce db uid "skip_ad" nn = false) :
    consumeItem db uid Item.skip SpendMode.ad (some nn) =
      (recalcAndStoreMonthlyRate
        (updateUsers
          (trackAdView (insertClaim db uid "skip_ad" (some nn) 0) uid
            AdKind.skips) uid
          (fun v =>
            { v with
              monthly_skips_used := v.monthly_skips_used + 1
              monthly_ads_watched := v.monthly_ads_watched + 1 })) uid,
       ConsumeOutcome.ok false (some u)) := by
  simp only [consumeItem, useSkip]
  rw [h]
  dsimp only
  rw [if_neg (by rw [hT]; exact Bool.false_ne_true)]

theorem useHint_ad_fresh (db : DB) (uid nn : String) (u : Account)
    (h : findUser db uid = some u)
    (hT : hasTypedNonce db uid "hint_ad" nn = false) :
    consumeItem db uid Item.hint SpendMode.ad (some nn) =
      (trackAdView (insertClaim db uid "hint_ad" (some nn) 0) uid AdKind.hints,
       ConsumeOutcome.ok false (some u)) := by
  simp only [consumeItem, useHint]
  rw [h]
  dsimp only
  rw [if_neg (by rw [hT]; exact Bool.false_ne_true)]

/-- C6 counterexample: the claim says every kind in {skip, hint, restart}
requires a nonce in ad mode and records an amount-0 ledger claim; but
useRestarts has no ad branch at all: with or without a nonce it performs no
check, records nothing, changes nothing, and returns undefined. -/
theorem claim_C6_counterexample :
    consumeItem db0 "u1" Item.restart SpendMode.ad none
      = (db0, ConsumeOutcome.undef) ∧
    consumeItem db0 "u1" Item.restart SpendMode.ad (some "n1")
      = (db0, ConsumeOutcome.undef) ∧
    nonceCount (consumeItem db0 "u1" Item.restart SpendMode.ad (some "n1")).1
      "u1" "n1" = 0 := by
  refine ⟨by decide, by decide, by decide⟩

/-- C6 (amended): for the skip and hint kinds, ad mode requires a nonce
(failing with a thrown Missing nonce when absent), records exactly one
amount-0 Idempotency-Ledger row while leaving the coin balance unchanged and
bumping the ad-view counter of the user_ads row (and for skip also the
monthly ads-watched counter), and a repeated call with the same nonce is a
safe no-op that reports ok with already=true and changes no state.  For the
restart kind the ad branch does not exist: the call performs no nonce check,
records nothing, changes nothing, and returns undefined. -/
theorem claim_C6 (db : DB) (uid nn : String) (u : Account)
    (h : findUser db uid = some u)
    (hs : hasTypedNonce db uid "skip_ad" nn = false)
    (hh : hasTypedNonce db uid "hint_ad" nn = false) :
    consumeItem db uid Item.skip SpendMode.ad none
      = (db, ConsumeOutcome.thrown "Missing nonce") ∧
    consumeItem db uid Item.hint SpendMode.ad none
      = (db, ConsumeOutcome.thrown "Missing nonce") ∧
    (consumeItem db uid Item.skip SpendMode.ad (some nn)).2
      = ConsumeOutcome.ok false (some u) ∧
    (consumeItem db uid Item.skip SpendMode.ad (some nn)).1.reward_claims
      = db.reward_claims ++ [⟨uid, "skip_ad", some nn, 0, db.today⟩] ∧
    (∃ u1, findUser (consumeItem db uid Item.skip SpendMode.ad (some nn)).1 uid
      = some u1 ∧ u1.coins = u.coins ∧
      u1.monthly_ads_watched = u.monthly_ads_watched + 1) ∧
    adsRow (consumeItem db uid Item.skip SpendMode.ad (some nn)).1 uid
      = some (adsBump AdKind.skips
          ((adsRow db uid).getD ⟨uid, db.month, 0, 0, 0, 0⟩)) ∧
    (∃ u2, consumeItem
        (consumeItem db uid Item.skip SpendMode.ad (some nn)).1 uid
        Item.skip SpendMode.ad (some nn)
      = ((consumeItem db uid Item.skip SpendMode.ad (some nn)).1,
         ConsumeOutcome.ok true (some u2))) ∧
    (consumeItem db uid Item.hint SpendMode.ad (some nn)).2
      = ConsumeOutcome.ok false (some u) ∧
    (consumeItem db uid Item.hint SpendMode.ad (some nn)).1.reward_claims
      = db.reward_claims ++ [⟨uid, "hint_ad", some nn, 0, db.today⟩] ∧
    (∃ u1, findUser (consumeItem db uid Item.hint SpendMode.ad (some nn)).1 uid
      = some u1 ∧ u1.coins = u.coins) ∧
    adsRow (consumeItem db uid Item.hint SpendMode.ad (some nn)).1 uid
      = some (adsBump AdKind.hints
          ((adsRow db uid).getD ⟨uid, db.month, 0, 0, 0, 0⟩)) ∧
    (∃ u2, consumeItem
        (consumeItem db uid Item.hint SpendMode.ad (some nn)).1 uid
        Item.hint SpendMode.ad (some nn)
      = ((consumeItem db uid Item.hint SpendMode.ad (some nn)).1,
         ConsumeOutcome.ok true (some u2))) ∧
    consumeItem db uid Item.restart SpendMode.ad (some nn)
      = (db, ConsumeOutcome.undef) := by
  have hskip := useSkip_ad_fresh db uid nn u h hs
  have hhint := useHint_ad_fresh db uid nn u h hh
  have hf1 : findUser
      (trackAdView (insertClaim db uid "skip_ad" (some nn) 0) uid AdKind.skips)
      uid = some u := by
    rw [findUser_trackAdView]
    exact h
  have hB := findUser_updateUsers_self
    (trackAdView (insertClaim db uid "skip_ad" (some nn) 0) uid AdKind.skips)
    uid
    (fun v =>
      { v with
        monthly_skips_used := v.monthly_skips_used + 1
        monthly_ads_watched := v.monthly_ads_watched + 1 })
    (fun v => rfl)
  rw [hf1] at hB
  simp only [Option.map_some'] at hB
  have hC := findUser_recalc _ uid _ hB
  have hT2 : hasTypedNonce (consumeItem db uid Item.skip SpendMode.ad (some nn)).1
      uid "skip_ad" nn = true := by
    rw [hskip]
    simp [hasTypedNonce, List.any_append]
  obtain ⟨uC, hCC⟩ : ∃ w,
      findUser (consumeItem db uid Item.skip SpendMode.ad (some nn)).1 uid
        = some w := by
    rw [hskip]
    dsimp only
    exact ⟨_, hC⟩
  have hdup := useSkip_ad_dup
    (consumeItem db uid Item.skip SpendMode.ad (some nn)).1 uid nn uC hCC hT2
  have hfh : findUser (consumeItem db uid Item.hint SpendMode.ad (some nn)).1 uid
      = some u := by
    rw [hhint]
    dsimp only
    rw [findUser_trackAdView]
    exact h
  have hT3 : hasTypedNonce (consumeItem db uid Item.hint SpendMode.ad (some nn)).1
      uid "hint_ad" nn = true := by
    rw [hhint]
    simp [hasTypedNonce, List.any_append]
  have hdup2 := useHint_ad_dup
    (consumeItem db uid Item.hint SpendMode.ad (some nn)).1 uid nn u hfh hT3
  refine ⟨useSkip_ad_missing db uid u h, useHint_ad_missing db uid u h,
    by rw [hskip], ?_, ?_, ?_, ⟨uC, hdup⟩,
    by rw [hhint], ?_, ⟨u, hfh, rfl⟩, ?_, ⟨u, hdup2⟩,
    useRestarts_ad db uid u h (some nn)⟩
  · rw [hskip]
    simp
  · rw [hskip]
    dsimp only
    exact ⟨_, hC, rfl, rfl⟩
  · rw [hskip]
    dsimp only
    rw [adsRow_recalc, adsRow_updateUsers, adsRow_trackAdView]
    rfl
  · rw [hhint]
    simp
  · rw [hhint]
    dsimp only
    rw [adsRow_trackAdView]
    rfl

/-- Witness for C6 on the fresh one-user store with nonce n1. -/
theorem claim_C6_witness :
    consumeItem db0 "u1" Item.skip SpendMode.ad none
      = (db0, ConsumeOutcome.thrown "Missing nonce") ∧
    consumeItem db0 "u1" Item.hint SpendMode.ad none
      = (db0, ConsumeOutcome.thrown "Missing nonce") ∧
    (consumeItem db0 "u1" Item.skip SpendMode.ad (some "n1")).2
      = ConsumeOutcome.ok false (some (freshAccount "u1")) ∧
    (consumeItem db0 "u1" Item.skip SpendMode.ad (some "n1")).1.reward_claims
      = db0.reward_claims ++ [⟨"u1", "skip_ad", some "n1", 0, db0.today⟩] ∧
    (∃ u1, findUser (consumeItem db0 "u1" Item.skip SpendMode.ad (some "n1")).1
        "u1" = some u1 ∧ u1.coins = (freshAccount "u1").coins ∧
      u1.monthly_ads_watched = (freshAccount "u1").monthly_ads_watched + 1) ∧
    adsRow (consumeItem db0 "u1" Item.skip SpendMode.ad (some "n1")).1 "u1"
      = some (adsBump AdKind.skips
          ((adsRow db0 "u1").getD ⟨"u1", db0.month, 0, 0, 0, 0⟩)) ∧
    (∃ u2, consumeItem
        (consumeItem db0 "u1" Item.skip SpendMode.ad (some "n1")).1 "u1"
        Item.skip SpendMode.ad (some "n1")
      = ((consumeItem db0 "u1" Item.skip SpendMode.ad (some "n1")).1,
         ConsumeOutcome.ok true (some u2))) ∧
    (consumeItem db0 "u1" Item.hint SpendMode.ad (some "n1")).2
      = ConsumeOutcome.ok false (some (freshAccount "u1")) ∧
    (consumeItem db0 "u1" Item.hint SpendMode.ad (some "n1")).1.reward_claims
      = db0.reward_claims ++ [⟨"u1", "hint_ad", some "n1", 0, db0.today⟩] ∧
    (∃ u1, findUser (consumeItem db0 "u1" Item.hint SpendMode.ad (some "n1")).1
        "u1" = some u1 ∧ u1.coins = (freshAccount "u1").coins) ∧
    adsRow (consumeItem db0 "u1" Item.hint SpendMode.ad (some "n1")).1 "u1"
      = some (adsBump AdKind.hints
          ((adsRow db0 "u1").getD ⟨"u1", db0.month, 0, 0, 0, 0⟩)) ∧
    (∃ u2, consumeItem
        (consumeItem db0 "u1" Item.hint SpendMode.ad (some "n1")).1 "u1"
        Item.hint SpendMode.ad (some "n1")
      = ((consumeItem db0 "u1" Item.hint SpendMode.ad (some "n1")).1,
         ConsumeOutcome.ok true (some u2))) ∧
    consumeItem db0 "u1" Item.restart SpendMode.ad (some "n1")
      = (db0, ConsumeOutcome.undef) :=
  claim_C6 db0 "u1" "n1" (freshAccount "u1") (by decide) (by decide) (by decide)

theorem undigits_decDigitsAux : ∀ fuel n, n ≤ fuel →
    undigits (decDigitsAux fuel n) = n := by
  intro fuel
  induction fuel with
  | zero =>
    intro n hn
    have : n = 0 := by omega
    subst this
    rfl
  | succ f ih =>
    intro n hn
    by_cases h0 : n = 0
    · subst h0
      rfl
    · have hdiv : n / 10 ≤ f := by
        have := Nat.div_lt_self (Nat.pos_of_ne_zero h0) (by norm_num : 1 < 10)
        omega
      simp only [decDigitsAux, if_neg h0, undigits]
      rw [ih (n / 10) hdiv]
      omega

theorem decDigits_inj {a b : Nat} (h : decDigits a = decDigits b) : a = b := by
  have ha := undigits_decDigitsAux a a le_rfl
  have hb := undigits_decDigitsAux b b le_rfl
  unfold decDigits at h
  rw [← ha, ← hb, h]

theorem decDigitsAux_lt_ten : ∀ fuel n, ∀ d ∈ decDigitsAux fuel n, d < 10 := by
  intro fuel
  induction fuel with
  | zero =>
    intro n d hd
    simp [decDigitsAux] at hd
  | succ f ih =>
    intro n d hd
    by_cases h0 : n = 0
    · subst h0
      simp [decDigitsAux] at hd
    · simp only [decDigitsAux, if_neg h0] at hd
      rcases List.mem_cons.mp hd with rfl | hd2
      · exact Nat.mod_lt n (by norm_num)
      · exact ih (n / 10) d hd2

theorem digitToChar_inj_lt :
    ∀ a, a < 10 → ∀ b, b < 10 → digitToChar a = digitToChar b → a = b := by
  decide

theorem map_digitToChar_inj : ∀ (l1 l2 : List Nat), (∀ d ∈ l1, d < 10) →
    (∀ d ∈ l2, d < 10) → l1.map digitToChar = l2.map digitToChar →
    l1 = l2 := by
  intro l1
  induction l1 with
  | nil =>
    intro l2 _ _ h
    cases l2 with
    | nil => rfl
    | cons b l2 => simp at h
  | cons a l1 ih =>
    intro l2 h1 h2 h
    cases l2 with
    | nil => simp at h
    | cons b l2 =>
      simp only [List.map_cons, List.cons.injEq] at h
      have hab : a = b := digitToChar_inj_lt a (h1 a (by simp)) b
        (h2 b (by simp)) h.1
      have : l1 = l2 := ih l2 (fun d hd => h1 d (by simp [hd]))
        (fun d hd => h2 d (by simp [hd])) h.2
      rw [hab, this]

theorem natDecimal_inj_pos {a b : Nat} (ha : a ≠ 0) (hb : b ≠ 0)
    (h : natDecimal a = natDecimal b) : a = b := by
  unfold natDecimal at h
  rw [if_neg ha, if_neg hb] at h
  have hdata : ((decDigits a).reverse.map digitToChar)
      = ((decDigits b).reverse.map digitToChar) := congrArg String.data h
  have hrev : (decDigits a).reverse = (decDigits b).reverse :=
    map_digitToChar_inj _ _
      (fun d hd => decDigitsAux_lt_ten a a d (List.mem_reverse.mp hd))
      (fun d hd => decDigitsAux_lt_ten b b d (List.mem_reverse.mp hd)) hdata
  exact decDigits_inj (List.reverse_injective hrev)

theorem coinAdNonce_inj_pos (month : String) {a b : Nat} (ha : a ≠ 0)
    (hb : b ≠ 0) (h : coinAdNonce month a = coinAdNonce month b) : a = b := by
  unfold coinAdNonce at h
  have hdata := congrArg String.data h
  simp only [String.data_append, List.append_assoc] at hdata
  have h1 := List.append_cancel_left hdata
  have h2 := List.append_cancel_left h1
  have h3 := List.append_cancel_left h2
  exact natDecimal_inj_pos ha hb (String.ext h3)

theorem adsRow_insertClaim (db : DB) (uid typ : String) (nonce : Option String)
    (amount : Int) (uid2 : String) :
    adsRow (insertClaim db uid typ nonce amount) uid2 = adsRow db uid2 := rfl

theorem adsRow_addCoins (db : DB) (uid : String) (delta : Int) (uid2 : String) :
    adsRow (addCoins db uid delta).1 uid2 = adsRow db uid2 := rfl

theorem claimCoinAd_step (db : DB) (uid : String) (v : Account) (k : Nat)
    (hv : findUser db uid = some v)
    (hads : ((adsRow db uid).getD ⟨uid, db.month, 0, 0, 0, 0⟩).ads_for_coins
      = k)
    (hn : hasNonce db uid (coinAdNonce db.month (k + 1)) = false) :
    (∃ v1, findUser (claimCoinAd db uid).1 uid = some v1 ∧
      v1.coins = v.coins + max (50 - (k : Int)) 2 ∧
      v1.monthly_ads_watched = v.monthly_ads_watched + 1) ∧
    ((adsRow (claimCoinAd db uid).1 uid).getD
        ⟨uid, db.month, 0, 0, 0, 0⟩).ads_for_coins = k + 1 ∧
    (claimCoinAd db uid).1.reward_claims = db.reward_claims ++
      [⟨uid, "ad", some (coinAdNonce db.month (k + 1)),
        max (50 - (k : Int)) 2, db.today⟩] ∧
    (claimCoinAd db uid).1.month = db.month ∧
    (claimCoinAd db uid).1.today = db.today ∧
    (claimCoinAd db uid).2.already = false := by
  have hads1 := adsRow_trackAdView db uid AdKind.coins
  have hget : (getMonthlyAds (trackAdView db uid AdKind.coins) uid).1
      = k + 1 := by
    unfold getMonthlyAds
    rw [hads1]
    simp [adsBump, hads]
  have hcast : ((k + 1 : Nat) : Int) - 1 = (k : Int) := by
    push_cast
    ring
  have hamount : coinRewardForAd (((k + 1 : Nat) : Int) - 1)
      = max (50 - (k : Int)) 2 := by
    rw [hcast]
    rfl
  have hcall : claimCoinAd db uid =
      claimReward (trackAdView db uid AdKind.coins) uid "ad"
        (coinAdNonce db.month (k + 1)) (max (50 - (k : Int)) 2) 0 := by
    simp only [claimCoinAd]
    rw [hget, hamount]
  have hn1 : hasNonce (trackAdView db uid AdKind.coins) uid
      (coinAdNonce db.month (k + 1)) = false := by
    unfold hasNonce at hn ⊢
    rw [trackAdView_reward_claims]
    exact hn
  have hfresh := claimReward_fresh (trackAdView db uid AdKind.coins) uid "ad"
    (coinAdNonce db.month (k + 1)) (max (50 - (k : Int)) 2) 0 hn1
  rw [if_pos (by decide : (("ad" == "ad_50" || "ad" == "ad") : Bool) = true)]
    at hfresh
  have hv1 : findUser
      (insertClaim (trackAdView db uid AdKind.coins) uid "ad"
        (some (coinAdNonce db.month (k + 1))) (max (50 - (k : Int)) 2)) uid
      = some v := by
    rw [findUser_insertClaim, findUser_trackAdView]
    exact hv
  obtain ⟨hA, -⟩ := addCoins_findUser _ uid (max (50 - (k : Int)) 2) v hv1
  have hB := findUser_updateUsers_self
    (addCoins
      (insertClaim (trackAdView db uid AdKind.coins) uid "ad"
        (some (coinAdNonce db.month (k + 1))) (max (50 - (k : Int)) 2)) uid
      (max (50 - (k : Int)) 2)).1 uid
    (fun w => { w with monthly_ads_watched := w.monthly_ads_watched + 1 })
    (fun w => rfl)
  rw [hA] at hB
  simp only [Option.map_some'] at hB
  have hC := findUser_recalc _ uid _ hB
  refine ⟨?_, ?_, ?_, ?_, ?_, ?_⟩
  · rw [hcall, hfresh]
    dsimp only
    exact ⟨_, hC, rfl, rfl⟩
  · rw [hcall, hfresh]
    dsimp only
    rw [adsRow_recalc, adsRow_updateUsers, adsRow_addCoins, adsRow_insertClaim,
      hads1]
    simp [adsBump, hads]
  · rw [hcall, hfresh]
    simp
  · rw [hcall, hfresh]
    simp
  · rw [hcall, hfresh]
    simp
  · rw [hcall, hfresh]

/-- C4: starting the month fresh (no user_ads row, zero ads watched, no
coin-ad nonces claimed), the n-th claimCoinAd call pays exactly
max(50 - (n-1), 2) coins — base 50, floor 2 — and raises both the monthly
ads-for-coins count and the monthly ads-watched counter to n; in particular
the first call pays 50 and sets the watched counter to 1, and the 49th and
every later call that month pays exactly 2. -/
theorem claim_C4 (db : DB) (uid : String) (u : Account)
    (h : findUser db uid = some u) (hw0 : u.monthly_ads_watched = 0)
    (hads0 : adsRow db uid = none)
    (hfreshN : ∀ i, 1 ≤ i → hasNonce db uid (coinAdNonce db.month i) = false) :
    (∀ n, ∃ vn,
      findUser (iterState (fun d => claimCoinAd d uid) n db) uid = some vn ∧
      vn.monthly_ads_watched = n ∧
      ((adsRow (iterState (fun d => claimCoinAd d uid) n db) uid).getD
        ⟨uid, db.month, 0, 0, 0, 0⟩).ads_for_coins = n) ∧
    (∀ n, ∀ vp vn,
      findUser (iterState (fun d => claimCoinAd d uid) n db) uid = some vp →
      findUser (iterState (fun d => claimCoinAd d uid) (n + 1) db) uid
        = some vn →
      vn.coins = vp.coins + max (50 - (n : Int)) 2 ∧
      (claimCoinAd (iterState (fun d => claimCoinAd d uid) n db) uid).2.already
        = false) ∧
    (∃ v1, findUser (iterState (fun d => claimCoinAd d uid) 1 db) uid
        = some v1 ∧
      v1.coins = u.coins + 50 ∧ v1.monthly_ads_watched = 1) ∧
    (∀ n, 48 ≤ n → ∀ vp vn,
      findUser (iterState (fun d => claimCoinAd d uid) n db) uid = some vp →
      findUser (iterState (fun d => claimCoinAd d uid) (n + 1) db) uid
        = some vn →
      vn.coins = vp.coins + 2) := by
  have inv : ∀ n, ∃ vn,
      findUser (iterState (fun d => claimCoinAd d uid) n db) uid = some vn ∧
      vn.monthly_ads_watched = n ∧
      ((adsRow (iterState (fun d => claimCoinAd d uid) n db) uid).getD
        ⟨uid, db.month, 0, 0, 0, 0⟩).ads_for_coins = n ∧
      (iterState (fun d => claimCoinAd d uid) n db).month = db.month ∧
      (iterState (fun d => claimCoinAd d uid) n db).today = db.today ∧
      (∀ i, n + 1 ≤ i →
        hasNonce (iterState (fun d => claimCoinAd d uid) n db) uid
          (coinAdNonce db.month i) = false) := by
    intro n
    induction n with
    | zero =>
      refine ⟨u, h, hw0, ?_, rfl, rfl, ?_⟩
      · show ((adsRow db uid).getD _).ads_for_coins = 0
        rw [hads0]
        rfl
      · intro i hi
        exact hfreshN i (by omega)
    | succ m ih =>
      obtain ⟨vm, hvm, hwm, ham, hmm, htm, hfm⟩ := ih
      have ham2 : ((adsRow (iterState (fun d => claimCoinAd d uid) m db)
          uid).getD
          ⟨uid, (iterState (fun d => claimCoinAd d uid) m db).month,
            0, 0, 0, 0⟩).ads_for_coins = m := by
        rw [hmm]
        exact ham
      have hnm : hasNonce (iterState (fun d => claimCoinAd d uid) m db) uid
          (coinAdNonce (iterState (fun d => claimCoinAd d uid) m db).month
            (m + 1)) = false := by
        rw [hmm]
        exact hfm (m + 1) le_rfl
      obtain ⟨⟨v1, hv1, hc1, hw1⟩, hads1, hclaims1, hmonth1, htoday1, hal1⟩ :=
        claimCoinAd_step (iterState (fun d => claimCoinAd d uid) m db) uid vm m
          hvm ham2 hnm
      refine ⟨v1, hv1, ?_, ?_, ?_, ?_, ?_⟩
      · rw [hw1, hwm]
      · rw [← hmm]
        exact hads1
      · show (claimCoinAd (iterState (fun d => claimCoinAd d uid) m db)
          uid).1.month = db.month
        rw [hmonth1, hmm]
      · show (claimCoinAd (iterState (fun d => claimCoinAd d uid) m db)
          uid).1.today = db.today
        rw [htoday1, htm]
      · intro i hi
        show ((claimCoinAd (iterState (fun d => claimCoinAd d uid) m db)
          uid).1.reward_claims.any (fun c =>
            c.uid == uid && c.nonce == some (coinAdNonce db.month i))) = false
        rw [hclaims1, List.any_append]
        have hold : ((iterState (fun d =>
              claimCoinAd d uid) m db).reward_claims.any (fun c =>
              c.uid == uid && c.nonce == some (coinAdNonce db.month i)))
            = false := hfm i (by omega)
        rw [hold]
        simp only [Bool.false_or, List.any_cons, List.any_nil, Bool.or_false]
        have hne : coinAdNonce
            (iterState (fun d => claimCoinAd d uid) m db).month (m + 1)
            ≠ coinAdNonce db.month i := by
          rw [hmm]
          intro heq
          have := coinAdNonce_inj_pos db.month
            (by omega : m + 1 ≠ 0) (by omega : i ≠ 0) heq
          omega
        simp [hne]
  have hdelta : ∀ n, ∀ vp vn,
      findUser (iterState (fun d => claimCoinAd d uid) n db) uid = some vp →
      findUser (iterState (fun d => claimCoinAd d uid) (n + 1) db) uid
        = some vn →
      vn.coins = vp.coins + max (50 - (n : Int)) 2 ∧
      (claimCoinAd (iterState (fun d => claimCoinAd d uid) n db) uid).2.already
        = false := by
    intro n vp vn hp hn2
    obtain ⟨vm, hvm, hwm, ham, hmm, htm, hfm⟩ := inv n
    have hvp : vp = vm := by
      rw [hvm] at hp
      exact (Option.some.inj hp).symm
    have ham2 : ((adsRow (iterState (fun d => claimCoinAd d uid) n db)
        uid).getD
        ⟨uid, (iterState (fun d => claimCoinAd d uid) n db).month,
          0, 0, 0, 0⟩).ads_for_coins = n := by
      rw [hmm]
      exact ham
    have hnm : hasNonce (iterState (fun d => claimCoinAd d uid) n db) uid
        (coinAdNonce (iterState (fun d => claimCoinAd d uid) n db).month
          (n + 1)) = false := by
      rw [hmm]
      exact hfm (n + 1) le_rfl
    obtain ⟨⟨v1, hv1, hc1, hw1⟩, -, -, -, -, hal1⟩ :=
      claimCoinAd_step (iterState (fun d => claimCoinAd d uid) n db) uid vm n
        hvm ham2 hnm
    have hvn : vn = v1 := by
      have hn3 : findUser
          (claimCoinAd (iterState (fun d => claimCoinAd d uid) n db) uid).1 uid
          = some vn := hn2
      rw [hv1] at hn3
      exact (Option.some.inj hn3).symm
    subst hvp hvn
    exact ⟨hc1, hal1⟩
  refine ⟨fun n => ?_, hdelta, ?_, ?_⟩
  · obtain ⟨vn, h1, h2, h3, -, -, -⟩ := inv n
    exact ⟨vn, h1, h2, h3⟩
  · obtain ⟨w1, hw1f, hw1w, -, -, -, -⟩ := inv 1
    obtain ⟨hcoins, -⟩ := hdelta 0 u w1 h hw1f
    refine ⟨w1, hw1f, ?_, hw1w⟩
    rw [hcoins]
    norm_num
  · intro n hn vp vn hp hn2
    obtain ⟨hcoins, -⟩ := hdelta n vp vn hp hn2
    rw [hcoins]
    have h48 : (48 : Int) ≤ (n : Int) := by exact_mod_cast hn
    rw [max_eq_right (by omega)]

/-- Witness for C4 on the fresh one-user store (no claims, no user_ads row). -/
theorem claim_C4_witness :
    (∀ n, ∃ vn,
      findUser (iterState (fun d => claimCoinAd d "u1") n db0) "u1" = some vn ∧
      vn.monthly_ads_watched = n ∧
      ((adsRow (iterState (fun d => claimCoinAd d "u1") n db0) "u1").getD
        ⟨"u1", db0.month, 0, 0, 0, 0⟩).ads_for_coins = n) ∧
    (∀ n, ∀ vp vn,
      findUser (iterState (fun d => claimCoinAd d "u1") n db0) "u1" = some vp →
      findUser (iterState (fun d => claimCoinAd d "u1") (n + 1) db0) "u1"
        = some vn →
      vn.coins = vp.coins + max (50 - (n : Int)) 2 ∧
      (claimCoinAd (iterState (fun d => claimCoinAd d "u1") n db0)
        "u1").2.already = false) ∧
    (∃ v1, findUser (iterState (fun d => claimCoinAd d "u1") 1 db0) "u1"
        = some v1 ∧
      v1.coins = (freshAccount "u1").coins + 50 ∧ v1.monthly_ads_watched = 1) ∧
    (∀ n, 48 ≤ n → ∀ vp vn,
      findUser (iterState (fun d => claimCoinAd d "u1") n db0) "u1" = some vp →
      findUser (iterState (fun d => claimCoinAd d "u1") (n + 1) db0) "u1"
        = some vn →
      vn.coins = vp.coins + 2) :=
  claim_C4 db0 "u1" (freshAccount "u1") (by decide) (by decide) (by decide)
    (fun i _ => rfl)
